import Mathlib

/-!
Shallow embedding of the realtime pub/sub engine (`RealtimeService` in the
repository source): connection registry, topic/channel directory, per-topic
sequence counters, and the subscribe / unsubscribe / publish / heartbeat /
disconnect handlers, together with the prefix-based permission check.

JavaScript `Map`s are modelled as association lists over `String` keys
(`mget` / `mset` / `mdel` mirror `Map.get` / `Map.set` / `Map.delete`), and
JavaScript `Set`s as duplicate-free lists in insertion order (`sadd` / `sdel`
mirror `Set.add` / `Set.delete`).  `Date.now()` and `uuidv4()` are threaded in
as explicit `now` / `uuid` arguments.  The Socket.IO room broadcast
`io.to(topic).emit(...)` is modelled through the transport boundary: room
membership is kept in lock-step with `channel.subscribers` by the handlers
(`join` on subscribe, `leave` on unsubscribe, automatic removal on
disconnect), so the set of sockets the broadcast reaches is the channel's
subscriber set; whether the transport write to an individual subscriber
succeeds is an oracle `sendOk` the engine never consults.
-/

/-- The authenticated principal attached to a socket (`socket.user`):
user id, role string, and optional permission strings
(`user.permissions?` — an absent array behaves as the empty list). -/
structure User where
  userId : String
  role : String
  permissions : List String
deriving DecidableEq, Repr

/-- A connection record as stored in `this.connections`
(the `socket` handle itself carries no engine state and is omitted). -/
structure Conn where
  user : User
  connectedAt : Nat
  lastActivity : Nat
  subscribedChannels : List String
deriving DecidableEq, Repr

/-- A channel record as stored in `this.channels`. -/
structure Channel where
  name : String
  subscribers : List String
  createdAt : Nat
  messageCount : Nat
deriving DecidableEq, Repr

/-- A published message as constructed in `handlePublish`
(source field `from` is rendered `fromId`). -/
structure Message where
  id : String
  topic : String
  payload : String
  timestamp : Nat
  fromId : String
  seq : Nat
deriving DecidableEq, Repr

/-- The mutable state of `RealtimeService`: the four `Map` fields of the
constructor (`messageBuffer` is declared by the source but never used). -/
structure RState where
  connections : List (String × Conn)
  channels : List (String × Channel)
  messageBuffer : List (String × Nat)
  sequenceNumbers : List (String × Nat)
deriving DecidableEq, Repr

/-- The state of a freshly constructed service: all maps empty. -/
def initState : RState := ⟨[], [], [], []⟩

/-- Replies observable at a client: the `connected` event, the three ack
shapes produced by `sendAck` (each echoing the request `messageId`),
the absence of a reply, and the error ack produced by `sendError`. -/
inductive Reply where
  | connected (connectionId : String)
  | subAck (messageId topic : String) (subscriberCount : Nat)
  | unsubAck (messageId topic : String) (subscriberCount : Nat)
  | pubAck (messageId newMessageId topic : String) (seq deliveredTo : Nat)
  | noReply
  | err (code message : String)
deriving DecidableEq, Repr

/-! ### Map / Set primitives -/

/-- Semantics of `Map.get`: value at key `k`, or `none`. -/
def mget {α : Type} (k : String) : List (String × α) → Option α
  | [] => none
  | (k', v) :: rest => if k = k' then some v else mget k rest

/-- Semantics of `Map.set`: replace the entry at `k`, or append a fresh one. -/
def mset {α : Type} (k : String) (v : α) : List (String × α) → List (String × α)
  | [] => [(k, v)]
  | (k', v') :: rest => if k = k' then (k, v) :: rest else (k', v') :: mset k v rest

/-- Semantics of `Map.delete`: remove the entry at `k`. -/
def mdel {α : Type} (k : String) : List (String × α) → List (String × α)
  | [] => []
  | (k', v') :: rest => if k = k' then rest else (k', v') :: mdel k rest

/-- Semantics of `Set.add`: append `x` unless already present (insertion order kept). -/
def sadd (x : String) (s : List String) : List String :=
  if x ∈ s then s else s ++ [x]

/-- Semantics of `Set.delete`: remove the occurrence of `x`. -/
def sdel (x : String) : List String → List String
  | [] => []
  | y :: ys => if x = y then ys else y :: sdel x ys

/-- Tests that `p` is a (character-wise) prefix of `s` — the semantics of
JavaScript `String.prototype.startsWith`. -/
def chBeg : List Char → List Char → Bool
  | [], _ => true
  | _ :: _, [] => false
  | a :: as, b :: bs => decide (a = b) && chBeg as bs

/-- The source's `s.startsWith(p)`. -/
def strStartsWith (s p : String) : Bool := chBeg p.data s.data

/-! ### The engine operations (translated from the source handlers) -/

/-- Source `hasPermission(user, topic, action)`: admin bypass, then the
`public:` / `private:` / `user:<own id>` / `system:` prefix rules,
default deny. -/
def hasPermission (user : User) (topic action : String) : Bool :=
  if user.role = "admin" then true
  else if strStartsWith topic "public:" then true
  else if strStartsWith topic "private:" then
    user.permissions.contains "private_channel_access"
  else if strStartsWith topic ("user:" ++ user.userId) then true
  else if strStartsWith topic "system:" then
    if action = "publish" then decide (user.role = "admin") else true
  else false

/-- Source `handleConnection(socket)`: stores a fresh connection record
(empty membership, both timestamps `now`) and emits the `connected`
confirmation.  There is no duplicate-id check: `Map.set` overwrites. -/
def handleConnection (s : RState) (connectionId : String) (user : User) (now : Nat) :
    RState × Reply :=
  ({ s with connections := mset connectionId ⟨user, now, now, []⟩ s.connections },
   .connected connectionId)

/-- Source `handleSubscribe(connectionId, data, callback)`:
connection lookup, permission gate, membership update on both sides
(lazily creating the channel entry), success ack with the new
subscriber count. -/
def handleSubscribe (s : RState) (connectionId topic messageId : String) (now : Nat) :
    RState × Reply :=
  match mget connectionId s.connections with
  | none => (s, .err "connection_not_found" "连接不存在")
  | some connection =>
    if hasPermission connection.user topic "subscribe" then
      let connection' :=
        { connection with subscribedChannels := sadd topic connection.subscribedChannels }
      let channel := (mget topic s.channels).getD ⟨topic, [], now, 0⟩
      let channel' := { channel with subscribers := sadd connectionId channel.subscribers }
      ({ s with
          connections := mset connectionId connection' s.connections,
          channels := mset topic channel' s.channels },
       .subAck messageId topic channel'.subscribers.length)
    else (s, .err "permission_denied" "没有订阅权限")

/-- Source `handleUnsubscribe(connectionId, data, callback)`:
connection lookup, removal from both sides, deletion of the channel
entry when its subscriber set becomes empty, success ack with the
remaining subscriber count (`0` when the channel was absent). -/
def handleUnsubscribe (s : RState) (connectionId topic messageId : String) :
    RState × Reply :=
  match mget connectionId s.connections with
  | none => (s, .err "connection_not_found" "连接不存在")
  | some connection =>
    let connection' :=
      { connection with subscribedChannels := sdel topic connection.subscribedChannels }
    match mget topic s.channels with
    | some channel =>
      let channel' := { channel with subscribers := sdel connectionId channel.subscribers }
      let channels' :=
        if channel'.subscribers.length = 0 then mdel topic s.channels
        else mset topic channel' s.channels
      ({ s with
          connections := mset connectionId connection' s.connections,
          channels := channels' },
       .unsubAck messageId topic channel'.subscribers.length)
    | none =>
      ({ s with connections := mset connectionId connection' s.connections },
       .unsubAck messageId topic 0)

/-- Source `getNextSequenceNumber(topic)`: read-increment-store on the
per-topic counter map (missing key reads as `0`); returns the new
value together with the updated map. -/
def getNextSequenceNumber (sequenceNumbers : List (String × Nat)) (topic : String) :
    Nat × List (String × Nat) :=
  let current := (mget topic sequenceNumbers).getD 0
  let next := current + 1
  (next, mset topic next sequenceNumbers)

/-- Everything `handlePublish` produces: the successor state, the reply to
the publisher, the message broadcast to the room (if any), and the ids of
the subscribers whose transport write succeeded. -/
structure PublishOutcome where
  state : RState
  reply : Reply
  emitted : Option Message
  delivered : List String
deriving Repr

/-- Source `handlePublish(connectionId, data, callback)`: connection lookup, permission gate, channel-existence gate,
message construction with the next sequence number, room broadcast
(best-effort per subscriber; outcomes given by `sendOk`, never
inspected), message-count bump, and — only when `ackRequired` — the
success ack reporting `deliveredTo` as the channel's subscriber count. -/
def handlePublish (s : RState) (connectionId topic payload messageId : String)
    (ackRequired : Bool) (uuid : String) (now : Nat) (sendOk : String → Bool) :
    PublishOutcome :=
  match mget connectionId s.connections with
  | none => ⟨s, .err "connection_not_found" "连接不存在", none, []⟩
  | some connection =>
    if hasPermission connection.user topic "publish" then
      match mget topic s.channels with
      | none => ⟨s, .err "channel_not_found" "频道不存在", none, []⟩
      | some channel =>
        let sq := getNextSequenceNumber s.sequenceNumbers topic
        let message : Message :=
          ⟨uuid, topic, payload, now, connection.user.userId, sq.1⟩
        let channel' := { channel with messageCount := channel.messageCount + 1 }
        ⟨{ s with channels := mset topic channel' s.channels, sequenceNumbers := sq.2 },
         if ackRequired then
           .pubAck messageId uuid topic message.seq channel'.subscribers.length
         else .noReply,
         some message,
         channel.subscribers.filter sendOk⟩
    else ⟨s, .err "permission_denied" "没有发布权限", none, []⟩

/-- Source `handleHeartbeat(connectionId, data)`: refresh `lastActivity` when the
connection is known, otherwise do nothing. -/
def handleHeartbeat (s : RState) (connectionId : String) (now : Nat) : RState :=
  match mget connectionId s.connections with
  | none => s
  | some connection =>
    { s with
        connections :=
          mset connectionId { connection with lastActivity := now } s.connections }

/-- One step of the channel-cleanup loop in `handleDisconnect`: drop
`connectionId` from the channel's subscriber set and delete the entry when
it becomes empty. -/
def removeFromChannel (connectionId : String) (channels : List (String × Channel))
    (topic : String) : List (String × Channel) :=
  match mget topic channels with
  | none => channels
  | some channel =>
    let channel' := { channel with subscribers := sdel connectionId channel.subscribers }
    if channel'.subscribers.length = 0 then mdel topic channels
    else mset topic channel' channels

/-- Source `handleDisconnect(connectionId, reason)`: no-op for an unknown id,
otherwise remove the connection from every channel it subscribed to
(deleting emptied channels) and drop the connection record. -/
def handleDisconnect (s : RState) (connectionId : String) : RState :=
  match mget connectionId s.connections with
  | none => s
  | some connection =>
    { s with
        channels := connection.subscribedChannels.foldl (removeFromChannel connectionId)
          s.channels,
        connections := mdel connectionId s.connections }

/-! ### Event traces -/

/-- The client/transport events the engine reacts to. -/
inductive Event where
  | connect (connectionId : String) (user : User) (now : Nat)
  | subscribe (connectionId topic messageId : String) (now : Nat)
  | unsubscribe (connectionId topic messageId : String)
  | publish (connectionId topic payload messageId : String) (ackRequired : Bool)
      (uuid : String) (now : Nat) (sendOk : String → Bool)
  | heartbeat (connectionId : String) (now : Nat)
  | disconnect (connectionId reason : String)

/-- State transition for one event. -/
def step (s : RState) : Event → RState
  | .connect cid u now => (handleConnection s cid u now).1
  | .subscribe cid t mid now => (handleSubscribe s cid t mid now).1
  | .unsubscribe cid t mid => (handleUnsubscribe s cid t mid).1
  | .publish cid t p mid ack uuid now sendOk =>
      (handlePublish s cid t p mid ack uuid now sendOk).state
  | .heartbeat cid now => handleHeartbeat s cid now
  | .disconnect cid _ => handleDisconnect s cid

/-- Transport-level admissibility of an event: Socket.IO guarantees a
socket id is unique among live connections, so a `connection` event never
carries the id of a currently tracked connection.  Every other event may
occur at any time. -/
def ValidEvent (s : RState) : Event → Prop
  | .connect cid _ _ => mget cid s.connections = none
  | _ => True

/-- States reachable from the freshly constructed service by
transport-admissible events. -/
inductive Reachable : RState → Prop
  | init : Reachable initState
  | step {s : RState} {e : Event} : Reachable s → ValidEvent s e → Reachable (step s e)

/-- Sequence numbers of the messages event `e` broadcasts on topic `t`
when fired in state `s` (at most one). -/
def pubSeqOut (s : RState) (t : String) : Event → List Nat
  | .publish cid t' p mid ack uuid now sendOk =>
      match (handlePublish s cid t' p mid ack uuid now sendOk).emitted with
      | some m => if m.topic = t then [m.seq] else []
      | none => []
  | _ => []

/-- The sequence numbers assigned to the messages published on topic `t`
along an event trace, in real-time publish order at the engine. -/
def seqTrace (s : RState) (t : String) : List Event → List Nat
  | [] => []
  | e :: es => pubSeqOut s t e ++ seqTrace (step s e) t es

/-- The list `consecSeq a k = [a, a+1, ..., a+k-1]`: `k` consecutive naturals. -/
def consecSeq (a : Nat) : Nat → List Nat
  | 0 => []
  | k + 1 => a :: consecSeq (a + 1) k

/-- The subscriber set the directory records for `t` (empty when `t` has
no entry). -/
def subscribersOf (s : RState) (t : String) : List String :=
  ((mget t s.channels).map Channel.subscribers).getD []

/-- The directory/registry consistency invariant the handlers maintain:
well-formed keys, duplicate-free sets, no channel entry without
subscribers, and agreement of the two sides of the subscription
relation. -/
structure StateInv (s : RState) : Prop where
  connKeys : (s.connections.map Prod.fst).Nodup
  chanKeys : (s.channels.map Prod.fst).Nodup
  subsNodup : ∀ t ch, mget t s.channels = some ch → ch.subscribers.Nodup
  memNodup : ∀ c conn, mget c s.connections = some conn → conn.subscribedChannels.Nodup
  chanNonempty : ∀ t ch, mget t s.channels = some ch → ch.subscribers ≠ []
  connToChan : ∀ c conn t, mget c s.connections = some conn → t ∈ conn.subscribedChannels →
    ∃ ch, mget t s.channels = some ch ∧ c ∈ ch.subscribers
  chanToConn : ∀ t ch c, mget t s.channels = some ch → c ∈ ch.subscribers →
    ∃ conn, mget c s.connections = some conn ∧ t ∈ conn.subscribedChannels

/-! ### Lemmas about the map primitives -/

theorem mget_mset {α : Type} (t k : String) (v : α) (l : List (String × α)) :
    mget t (mset k v l) = if t = k then some v else mget t l := by
  induction l with
  | nil => by_cases h : t = k <;> simp [mget, mset, h]
  | cons p rest ih =>
    obtain ⟨k', v'⟩ := p
    by_cases hk : k = k'
    · subst hk
      by_cases ht : t = k <;> simp [mget, mset, ht]
    · by_cases ht : t = k'
      · subst ht
        have : ¬ t = k := fun h => hk h.symm
        simp [mget, mset, hk, this]
      · simp [mget, mset, hk, ht, ih]

theorem mget_eq_none_iff {α : Type} (k : String) (l : List (String × α)) :
    mget k l = none ↔ k ∉ l.map Prod.fst := by
  induction l with
  | nil => simp [mget]
  | cons p rest ih =>
    obtain ⟨k', v'⟩ := p
    by_cases h : k = k' <;> simp [mget, h, ih]

theorem keys_mset {α : Type} (k : String) (v : α) (l : List (String × α)) :
    (mset k v l).map Prod.fst =
      if k ∈ l.map Prod.fst then l.map Prod.fst else l.map Prod.fst ++ [k] := by
  induction l with
  | nil => simp [mset]
  | cons p rest ih =>
    obtain ⟨k', v'⟩ := p
    by_cases h : k = k'
    · subst h; simp [mset]
    · have : ¬ k' = k := fun h' => h h'.symm
      by_cases hm : k ∈ rest.map Prod.fst <;> simp [mset, h, this, hm, ih]

theorem nodup_keys_mset {α : Type} (k : String) (v : α) (l : List (String × α))
    (h : (l.map Prod.fst).Nodup) : ((mset k v l).map Prod.fst).Nodup := by
  rw [keys_mset]
  by_cases hm : k ∈ l.map Prod.fst
  · rw [if_pos hm]; exact h
  · simp only [hm, if_false]
    exact List.nodup_append.mpr ⟨h, List.nodup_singleton k, by simpa using fun hk => hm hk⟩

theorem keys_mdel_sublist {α : Type} (k : String) (l : List (String × α)) :
    List.Sublist ((mdel k l).map Prod.fst) (l.map Prod.fst) := by
  induction l with
  | nil => simp [mdel]
  | cons p rest ih =>
    obtain ⟨k', v'⟩ := p
    by_cases h : k = k'
    · simp [mdel, h]
    · simpa [mdel, h] using List.Sublist.cons₂ k' ih

theorem nodup_keys_mdel {α : Type} (k : String) (l : List (String × α))
    (h : (l.map Prod.fst).Nodup) : ((mdel k l).map Prod.fst).Nodup :=
  List.Nodup.sublist (keys_mdel_sublist k l) h

theorem mget_mdel_ne {α : Type} {t k : String} (h : t ≠ k) (l : List (String × α)) :
    mget t (mdel k l) = mget t l := by
  induction l with
  | nil => simp [mdel]
  | cons p rest ih =>
    obtain ⟨k', v'⟩ := p
    by_cases hk : k = k'
    · subst hk
      simp [mdel, mget, h]
    · by_cases ht : t = k' <;> simp [mdel, mget, hk, ht, ih]

theorem mget_mdel_self {α : Type} (k : String) (l : List (String × α))
    (h : (l.map Prod.fst).Nodup) : mget k (mdel k l) = none := by
  induction l with
  | nil => simp [mdel, mget]
  | cons p rest ih =>
    obtain ⟨k', v'⟩ := p
    rw [List.map_cons, List.nodup_cons] at h
    by_cases hk : k = k'
    · subst hk
      simp only [mdel, if_pos rfl]
      exact (mget_eq_none_iff k rest).mpr h.1
    · simp only [mdel, if_neg hk, mget, if_neg hk]
      exact ih h.2

theorem mget_mdel {α : Type} (t k : String) (l : List (String × α))
    (h : (l.map Prod.fst).Nodup) :
    mget t (mdel k l) = if t = k then none else mget t l := by
  by_cases ht : t = k
  · subst ht; simp [mget_mdel_self t l h]
  · simp [ht, mget_mdel_ne ht l]

theorem mset_self {α : Type} {k : String} {v : α} {l : List (String × α)}
    (h : mget k l = some v) : mset k v l = l := by
  induction l with
  | nil => simp [mget] at h
  | cons p rest ih =>
    obtain ⟨k', v'⟩ := p
    by_cases hk : k = k'
    · subst hk
      rw [mget, if_pos rfl] at h
      obtain rfl : v' = v := by injection h
      simp [mset]
    · rw [mget, if_neg hk] at h
      simp [mset, hk, ih h]

theorem mset_mset_self {α : Type} (k : String) (v v' : α) (l : List (String × α)) :
    mset k v (mset k v' l) = mset k v l := by
  induction l with
  | nil => simp [mset]
  | cons p rest ih =>
    obtain ⟨k', v''⟩ := p
    by_cases hk : k = k' <;> simp [mset, hk, ih]

/-! ### Lemmas about the set primitives -/

theorem mem_sadd (x y : String) (s : List String) : x ∈ sadd y s ↔ x = y ∨ x ∈ s := by
  unfold sadd
  by_cases h : y ∈ s
  · simp only [if_pos h]
    constructor
    · exact fun hx => Or.inr hx
    · rintro (rfl | hx)
      · exact h
      · exact hx
  · simp only [if_neg h, List.mem_append, List.mem_singleton]
    tauto

theorem sadd_ne_nil (y : String) (s : List String) : sadd y s ≠ [] := by
  intro h
  have : y ∈ sadd y s := (mem_sadd y y s).mpr (Or.inl rfl)
  rw [h] at this
  exact List.not_mem_nil y this

theorem nodup_sadd (y : String) (s : List String) (h : s.Nodup) : (sadd y s).Nodup := by
  unfold sadd
  by_cases hm : y ∈ s
  · rw [if_pos hm]; exact h
  · simp only [hm, if_false]
    exact List.nodup_append.mpr ⟨h, List.nodup_singleton y, by simpa using fun hy => hm hy⟩

theorem sdel_sublist (y : String) (s : List String) : List.Sublist (sdel y s) s := by
  induction s with
  | nil => simp [sdel]
  | cons a rest ih =>
    by_cases h : y = a
    · simp [sdel, h]
    · simpa [sdel, h] using List.Sublist.cons₂ a ih

theorem nodup_sdel (y : String) (s : List String) (h : s.Nodup) : (sdel y s).Nodup :=
  List.Nodup.sublist (sdel_sublist y s) h

theorem mem_of_mem_sdel {x y : String} {s : List String} (h : x ∈ sdel y s) : x ∈ s :=
  (sdel_sublist y s).mem h

theorem sdel_of_not_mem {y : String} {s : List String} (h : y ∉ s) : sdel y s = s := by
  induction s with
  | nil => simp [sdel]
  | cons a rest ih =>
    have hy : y ≠ a := fun hh => h (by simp [hh])
    have : y ∉ rest := fun hh => h (by simp [hh])
    simp [sdel, hy, ih this]

theorem mem_sdel (x y : String) (s : List String) (h : s.Nodup) :
    x ∈ sdel y s ↔ x ∈ s ∧ x ≠ y := by
  induction s with
  | nil => simp [sdel]
  | cons a rest ih =>
    obtain ⟨ha, hrest⟩ := List.nodup_cons.mp h
    by_cases hy : y = a
    · subst hy
      simp only [sdel, if_pos rfl, List.mem_cons]
      constructor
      · intro hx
        exact ⟨Or.inr hx, fun hxy => ha (hxy ▸ hx)⟩
      · rintro ⟨rfl | hx, hne⟩
        · exact absurd rfl hne
        · exact hx
    · simp only [sdel, if_neg hy, List.mem_cons, ih hrest]
      constructor
      · rintro (rfl | ⟨hx, hne⟩)
        · exact ⟨Or.inl rfl, fun hxy => hy hxy.symm⟩
        · exact ⟨Or.inr hx, hne⟩
      · rintro ⟨rfl | hx, hne⟩
        · exact Or.inl rfl
        · exact Or.inr ⟨hx, hne⟩

theorem not_mem_sdel_self (y : String) (s : List String) (h : s.Nodup) :
    y ∉ sdel y s := fun hm => ((mem_sdel y y s h).mp hm).2 rfl

/-! ### Lemmas about string prefixes -/

theorem chBeg_iff (p s : List Char) : chBeg p s = true ↔ ∃ r, s = p ++ r := by
  induction p generalizing s with
  | nil => simp [chBeg]
  | cons a as ih =>
    cases s with
    | nil => simp [chBeg]
    | cons b bs =>
      simp only [chBeg, Bool.and_eq_true, decide_eq_true_eq, ih, List.cons_append,
        List.cons.injEq]
      constructor
      · rintro ⟨rfl, r, rfl⟩
        exact ⟨r, rfl, rfl⟩
      · rintro ⟨r, rfl, rfl⟩
        exact ⟨rfl, r, rfl⟩

theorem strStartsWith_iff (s p : String) :
    strStartsWith s p = true ↔ ∃ r, s.data = p.data ++ r :=
  chBeg_iff p.data s.data

theorem startsWith_user_of_user_id (topic uid : String)
    (h : strStartsWith topic ("user:" ++ uid) = true) :
    strStartsWith topic "user:" = true := by
  obtain ⟨r, hr⟩ := (strStartsWith_iff topic ("user:" ++ uid)).mp h
  rw [String.data_append] at hr
  exact (strStartsWith_iff topic "user:").mpr ⟨uid.data ++ r, by simp [hr]⟩

/-- A topic starting with `user:` starts with none of the other three
recognised class prefixes. -/
theorem user_topic_no_other_class (topic : String)
    (h : strStartsWith topic "user:" = true) :
    strStartsWith topic "public:" = false ∧ strStartsWith topic "private:" = false ∧
      strStartsWith topic "system:" = false := by
  obtain ⟨r, hr⟩ := (strStartsWith_iff topic "user:").mp h
  unfold strStartsWith
  rw [hr]
  exact ⟨rfl, rfl, rfl⟩

/-- C1 (counterexample): the principal with id `"1"` (role `user`) is
granted `subscribe` on the topic `user:12` — a topic of the form
`user:<id>…` with `<id> = "12"` — even though `"1" ≠ "12"`:
`hasPermission` matches `user:` topics by prefix, not by exact id. -/
theorem user_topic_allows_prefix_principal :
    hasPermission ⟨"1", "user", []⟩ ("user:" ++ "12") "subscribe" = true ∧
      ("1" : String) ≠ "12" ∧ ("user" : String) ≠ "admin" := by
  refine ⟨by decide, by decide, by decide⟩

/-- C1 (amended): for a non-admin principal and either action, permission
on a topic of the `user:` class is granted exactly when the string
`user:<principal id>` is a prefix of the topic name — i.e. membership is
decided by prefix match against the principal's own id, not by exact
equality with the id segment of the topic. -/
theorem hasPermission_user_topic (u : User) (topic action : String)
    (hadmin : u.role ≠ "admin") (htop : strStartsWith topic "user:" = true) :
    hasPermission u topic action = strStartsWith topic ("user:" ++ u.userId) := by
  obtain ⟨h1, h2, h3⟩ := user_topic_no_other_class topic htop
  unfold hasPermission
  rw [if_neg hadmin]
  rw [h1, h2, h3]
  by_cases hu : strStartsWith topic ("user:" ++ u.userId) = true
  · simp [hu]
  · have hu' : strStartsWith topic ("user:" ++ u.userId) = false :=
      Bool.not_eq_true _ ▸ (by simpa using hu)
    simp [hu']

/-- C1 (witness): the amended statement instantiated at the principal
`"7"` and the topic `user:7:inbox`. -/
theorem hasPermission_user_topic_witness :
    (("user" : String) ≠ "admin" ∧ strStartsWith "user:7:inbox" "user:" = true) ∧
      hasPermission ⟨"7", "user", []⟩ "user:7:inbox" "publish"
        = strStartsWith "user:7:inbox" ("user:" ++ "7") :=
  ⟨⟨by decide, by decide⟩,
    hasPermission_user_topic ⟨"7", "user", []⟩ "user:7:inbox" "publish"
      (by decide) (by decide)⟩

/-- C3 (counterexample): an admin's subscribe request for the topic
`foo` — which matches none of the `public:` / `private:` / `user:` /
`system:` prefixes — is not rejected at all: it is acknowledged with
success and creates a directory entry for `foo`. -/
theorem admin_subscribe_unknown_prefix_accepted :
    (strStartsWith "foo" "public:" = false ∧ strStartsWith "foo" "private:" = false ∧
      strStartsWith "foo" "user:" = false ∧ strStartsWith "foo" "system:" = false) ∧
    (handleSubscribe (handleConnection initState "c1" ⟨"a1", "admin", []⟩ 0).1
        "c1" "foo" "m1" 1).2 = .subAck "m1" "foo" 1 ∧
    (mget "foo" (handleSubscribe (handleConnection initState "c1" ⟨"a1", "admin", []⟩ 0).1
        "c1" "foo" "m1" 1).1.channels).isSome = true := by
  refine ⟨⟨by decide, by decide, by decide, by decide⟩, by decide, by decide⟩

/-- C3 (amended): for a live connection whose principal is not an admin, a
subscribe request for a topic matching no known prefix is rejected — but
with the generic `permission_denied` error (the engine has no dedicated
`InvalidTopic` error), the topic is not treated as `public:`, and no
directory entry is created (the state is returned unchanged).  An admin's
subscribe to such a topic is accepted by the admin bypass. -/
theorem handleSubscribe_unknown_prefix (s : RState) (cid topic mid : String) (now : Nat)
    (conn : Conn) (hc : mget cid s.connections = some conn)
    (hadmin : conn.user.role ≠ "admin")
    (h1 : strStartsWith topic "public:" = false)
    (h2 : strStartsWith topic "private:" = false)
    (h3 : strStartsWith topic "user:" = false)
    (h4 : strStartsWith topic "system:" = false) :
    handleSubscribe s cid topic mid now = (s, .err "permission_denied" "没有订阅权限") := by
  have hu : strStartsWith topic ("user:" ++ conn.user.userId) = false := by
    by_cases hb : strStartsWith topic ("user:" ++ conn.user.userId) = true
    · rw [startsWith_user_of_user_id topic conn.user.userId hb] at h3
      exact absurd h3 (by simp)
    · simpa using hb
  have hperm : hasPermission conn.user topic "subscribe" = false := by
    unfold hasPermission
    rw [if_neg hadmin, h1, h2, hu, h4]
    simp
  unfold handleSubscribe
  rw [hc]
  simp [hperm]

/-- C3 (witness): the amended statement instantiated at a live `user`-role
connection and the prefix-less topic `foo`. -/
theorem handleSubscribe_unknown_prefix_witness :
    (mget "c1" (handleConnection initState "c1" ⟨"u1", "user", []⟩ 0).1.connections
        = some ⟨⟨"u1", "user", []⟩, 0, 0, []⟩ ∧
      (("user" : String) ≠ "admin") ∧
      strStartsWith "foo" "public:" = false ∧ strStartsWith "foo" "private:" = false ∧
      strStartsWith "foo" "user:" = false ∧ strStartsWith "foo" "system:" = false) ∧
    handleSubscribe (handleConnection initState "c1" ⟨"u1", "user", []⟩ 0).1
        "c1" "foo" "m1" 1
      = ((handleConnection initState "c1" ⟨"u1", "user", []⟩ 0).1,
         .err "permission_denied" "没有订阅权限") :=
  ⟨⟨by decide, by decide, by decide, by decide, by decide, by decide⟩,
    handleSubscribe_unknown_prefix _ "c1" "foo" "m1" 1 ⟨⟨"u1", "user", []⟩, 0, 0, []⟩
      (by decide) (by decide) (by decide) (by decide) (by decide) (by decide)⟩

/-- C4: a publish by a live, authorised publisher to a topic with no
directory entry (zero subscribers) is rejected with the engine's
topic-not-found error (`channel_not_found`), no message is emitted, and
the state is returned unchanged — no topic entry is created and no
sequence counter is advanced. -/
theorem handlePublish_empty_topic_rejected (s : RState)
    (cid topic payload mid uuid : String) (ack : Bool) (now : Nat)
    (sendOk : String → Bool) (conn : Conn)
    (hc : mget cid s.connections = some conn)
    (hp : hasPermission conn.user topic "publish" = true)
    (hch : mget topic s.channels = none) :
    handlePublish s cid topic payload mid ack uuid now sendOk
      = ⟨s, .err "channel_not_found" "频道不存在", none, []⟩ := by
  unfold handlePublish
  rw [hc]
  simp [hp, hch]

/-- C4 (witness): publishing to the never-subscribed topic `public:x`
from a freshly connected user. -/
theorem handlePublish_empty_topic_rejected_witness :
    (mget "c1" (handleConnection initState "c1" ⟨"u1", "user", []⟩ 0).1.connections
        = some ⟨⟨"u1", "user", []⟩, 0, 0, []⟩ ∧
      hasPermission ⟨"u1", "user", []⟩ "public:x" "publish" = true ∧
      mget "public:x" (handleConnection initState "c1" ⟨"u1", "user", []⟩ 0).1.channels
        = none) ∧
    handlePublish (handleConnection initState "c1" ⟨"u1", "user", []⟩ 0).1
        "c1" "public:x" "hello" "m1" true "uuid1" 3 (fun _ => true)
      = ⟨(handleConnection initState "c1" ⟨"u1", "user", []⟩ 0).1,
         .err "channel_not_found" "频道不存在", none, []⟩ :=
  ⟨⟨by decide, by decide, by decide⟩,
    handlePublish_empty_topic_rejected _ "c1" "public:x" "hello" "m1" "uuid1" true 3
      (fun _ => true) ⟨⟨"u1", "user", []⟩, 0, 0, []⟩ (by decide) (by decide) (by decide)⟩

/-- C9 (counterexample): a `connection` event carrying the id `c1` of an
already-registered connection does not fail: it emits the normal
`connected` confirmation, and replaces the existing record (one joined
topic, timestamps `0`) with a fresh one (no topics, timestamps `7`). -/
theorem register_duplicate_no_error :
    (handleConnection
        ⟨[("c1", ⟨⟨"u1", "user", []⟩, 0, 0, ["public:a"]⟩)],
         [("public:a", ⟨"public:a", ["c1"], 0, 0⟩)], [], []⟩
        "c1" ⟨"u1", "user", []⟩ 7).2 = .connected "c1" ∧
    mget "c1" (handleConnection
        ⟨[("c1", ⟨⟨"u1", "user", []⟩, 0, 0, ["public:a"]⟩)],
         [("public:a", ⟨"public:a", ["c1"], 0, 0⟩)], [], []⟩
        "c1" ⟨"u1", "user", []⟩ 7).1.connections = some ⟨⟨"u1", "user", []⟩, 7, 7, []⟩ ∧
    (some (⟨⟨"u1", "user", []⟩, 7, 7, []⟩ : Conn)
        ≠ some (⟨⟨"u1", "user", []⟩, 0, 0, ["public:a"]⟩ : Conn)) := by
  refine ⟨by decide, by decide, by decide⟩

/-- C9 (amended): registering a connection whose id is already tracked
does not fail with any error — the engine emits the usual `connected`
confirmation and overwrites the existing record with a fresh one (empty
membership, both timestamps reset to now), leaving the channel directory
and sequence counters untouched. -/
theorem handleConnection_duplicate_overwrites (s : RState) (cid : String) (u : User)
    (now : Nat) (r : Conn) (_h : mget cid s.connections = some r) :
    (handleConnection s cid u now).2 = .connected cid ∧
    mget cid (handleConnection s cid u now).1.connections = some ⟨u, now, now, []⟩ ∧
    (handleConnection s cid u now).1.channels = s.channels ∧
    (handleConnection s cid u now).1.sequenceNumbers = s.sequenceNumbers := by
  refine ⟨rfl, ?_, rfl, rfl⟩
  simp [handleConnection, mget_mset]

/-- C9 (witness): the amended statement at a state already holding `c1`. -/
theorem handleConnection_duplicate_overwrites_witness :
    (mget "c1" (⟨[("c1", ⟨⟨"u1", "user", []⟩, 0, 0, ["public:a"]⟩)],
          [("public:a", ⟨"public:a", ["c1"], 0, 0⟩)], [], []⟩ : RState).connections
        = some ⟨⟨"u1", "user", []⟩, 0, 0, ["public:a"]⟩) ∧
    ((handleConnection ⟨[("c1", ⟨⟨"u1", "user", []⟩, 0, 0, ["public:a"]⟩)],
          [("public:a", ⟨"public:a", ["c1"], 0, 0⟩)], [], []⟩
          "c1" ⟨"u2", "admin", []⟩ 7).2 = .connected "c1" ∧
      mget "c1" (handleConnection ⟨[("c1", ⟨⟨"u1", "user", []⟩, 0, 0, ["public:a"]⟩)],
          [("public:a", ⟨"public:a", ["c1"], 0, 0⟩)], [], []⟩
          "c1" ⟨"u2", "admin", []⟩ 7).1.connections = some ⟨⟨"u2", "admin", []⟩, 7, 7, []⟩ ∧
      (handleConnection ⟨[("c1", ⟨⟨"u1", "user", []⟩, 0, 0, ["public:a"]⟩)],
          [("public:a", ⟨"public:a", ["c1"], 0, 0⟩)], [], []⟩
          "c1" ⟨"u2", "admin", []⟩ 7).1.channels
        = (⟨[("c1", ⟨⟨"u1", "user", []⟩, 0, 0, ["public:a"]⟩)],
          [("public:a", ⟨"public:a", ["c1"], 0, 0⟩)], [], []⟩ : RState).channels ∧
      (handleConnection ⟨[("c1", ⟨⟨"u1", "user", []⟩, 0, 0, ["public:a"]⟩)],
          [("public:a", ⟨"public:a", ["c1"], 0, 0⟩)], [], []⟩
          "c1" ⟨"u2", "admin", []⟩ 7).1.sequenceNumbers
        = (⟨[("c1", ⟨⟨"u1", "user", []⟩, 0, 0, ["public:a"]⟩)],
          [("public:a", ⟨"public:a", ["c1"], 0, 0⟩)], [], []⟩ : RState).sequenceNumbers) :=
  ⟨by decide,
    handleConnection_duplicate_overwrites _ "c1" ⟨"u2", "admin", []⟩ 7
      ⟨⟨"u1", "user", []⟩, 0, 0, ["public:a"]⟩ (by decide)⟩

/-- C5 (counterexample): with three subscribers to `public:a` and a
transport whose send to `c2` fails, the publish ack reports
`deliveredTo = 3` (the subscriber count), not the `2` transports actually
delivered to: the engine never observes per-subscriber send outcomes. -/
theorem publish_deliveredTo_ignores_send_failure :
    (handlePublish
        ⟨[("c1", ⟨⟨"u1", "user", []⟩, 0, 0, ["public:a"]⟩),
          ("c2", ⟨⟨"u2", "user", []⟩, 0, 0, ["public:a"]⟩),
          ("c3", ⟨⟨"u3", "user", []⟩, 0, 0, ["public:a"]⟩)],
         [("public:a", ⟨"public:a", ["c1", "c2", "c3"], 0, 0⟩)], [], []⟩
        "c1" "public:a" "hello" "m1" true "uuid1" 9 (fun i => !(i == "c2"))).reply
      = .pubAck "m1" "uuid1" "public:a" 1 3 ∧
    (handlePublish
        ⟨[("c1", ⟨⟨"u1", "user", []⟩, 0, 0, ["public:a"]⟩),
          ("c2", ⟨⟨"u2", "user", []⟩, 0, 0, ["public:a"]⟩),
          ("c3", ⟨⟨"u3", "user", []⟩, 0, 0, ["public:a"]⟩)],
         [("public:a", ⟨"public:a", ["c1", "c2", "c3"], 0, 0⟩)], [], []⟩
        "c1" "public:a" "hello" "m1" true "uuid1" 9 (fun i => !(i == "c2"))).delivered
      = ["c1", "c3"] ∧
    (3 : Nat) ≠ 2 := by
  refine ⟨by decide, by decide, by decide⟩

/-- C5 (amended): a send failure to an individual subscriber neither
aborts delivery to the rest nor fails the publish: for a live, authorised
publisher and an existing channel, the ack is the same success ack for
every failure pattern, reporting `deliveredTo` as the full subscriber
count at publish time, the successor state does not depend on the failure
pattern, and every subscriber whose own transport send succeeds receives
the message. -/
theorem publish_fanout_isolated (s : RState) (cid topic payload mid uuid : String)
    (now : Nat) (conn : Conn) (ch : Channel)
    (hc : mget cid s.connections = some conn)
    (hp : hasPermission conn.user topic "publish" = true)
    (hch : mget topic s.channels = some ch)
    (sendOk sendOk' : String → Bool) :
    (handlePublish s cid topic payload mid true uuid now sendOk).reply
        = .pubAck mid uuid topic ((mget topic s.sequenceNumbers).getD 0 + 1)
            ch.subscribers.length ∧
    (handlePublish s cid topic payload mid true uuid now sendOk).state
        = (handlePublish s cid topic payload mid true uuid now sendOk').state ∧
    ∀ c ∈ ch.subscribers, sendOk c = true →
      c ∈ (handlePublish s cid topic payload mid true uuid now sendOk).delivered := by
  unfold handlePublish
  rw [hc]
  refine ⟨by simp [hp, hch, getNextSequenceNumber], by simp [hp, hch], ?_⟩
  intro c hmem hok
  simp only [hp, hch, if_pos, List.mem_filter]
  simp [hmem, hok]

/-- C5 (witness): the amended statement at the three-subscriber state,
with the failing-at-`c2` transport against the all-success transport. -/
theorem publish_fanout_isolated_witness :
    (mget "c1" (⟨[("c1", ⟨⟨"u1", "user", []⟩, 0, 0, ["public:a"]⟩),
          ("c2", ⟨⟨"u2", "user", []⟩, 0, 0, ["public:a"]⟩),
          ("c3", ⟨⟨"u3", "user", []⟩, 0, 0, ["public:a"]⟩)],
         [("public:a", ⟨"public:a", ["c1", "c2", "c3"], 0, 0⟩)], [], []⟩ : RState).connections
        = some ⟨⟨"u1", "user", []⟩, 0, 0, ["public:a"]⟩ ∧
      hasPermission ⟨"u1", "user", []⟩ "public:a" "publish" = true ∧
      mget "public:a" (⟨[("c1", ⟨⟨"u1", "user", []⟩, 0, 0, ["public:a"]⟩),
          ("c2", ⟨⟨"u2", "user", []⟩, 0, 0, ["public:a"]⟩),
          ("c3", ⟨⟨"u3", "user", []⟩, 0, 0, ["public:a"]⟩)],
         [("public:a", ⟨"public:a", ["c1", "c2", "c3"], 0, 0⟩)], [], []⟩ : RState).channels
        = some ⟨"public:a", ["c1", "c2", "c3"], 0, 0⟩) ∧
    ((handlePublish ⟨[("c1", ⟨⟨"u1", "user", []⟩, 0, 0, ["public:a"]⟩),
          ("c2", ⟨⟨"u2", "user", []⟩, 0, 0, ["public:a"]⟩),
          ("c3", ⟨⟨"u3", "user", []⟩, 0, 0, ["public:a"]⟩)],
         [("public:a", ⟨"public:a", ["c1", "c2", "c3"], 0, 0⟩)], [], []⟩
        "c1" "public:a" "hello" "m1" true "uuid1" 9 (fun i => !(i == "c2"))).reply
        = .pubAck "m1" "uuid1" "public:a"
            ((mget "public:a" (⟨[("c1", ⟨⟨"u1", "user", []⟩, 0, 0, ["public:a"]⟩),
                ("c2", ⟨⟨"u2", "user", []⟩, 0, 0, ["public:a"]⟩),
                ("c3", ⟨⟨"u3", "user", []⟩, 0, 0, ["public:a"]⟩)],
               [("public:a", ⟨"public:a", ["c1", "c2", "c3"], 0, 0⟩)], [], []⟩
                : RState).sequenceNumbers).getD 0 + 1)
            (["c1", "c2", "c3"] : List String).length ∧
      (handlePublish ⟨[("c1", ⟨⟨"u1", "user", []⟩, 0, 0, ["public:a"]⟩),
          ("c2", ⟨⟨"u2", "user", []⟩, 0, 0, ["public:a"]⟩),
          ("c3", ⟨⟨"u3", "user", []⟩, 0, 0, ["public:a"]⟩)],
         [("public:a", ⟨"public:a", ["c1", "c2", "c3"], 0, 0⟩)], [], []⟩
        "c1" "public:a" "hello" "m1" true "uuid1" 9 (fun i => !(i == "c2"))).state
        = (handlePublish ⟨[("c1", ⟨⟨"u1", "user", []⟩, 0, 0, ["public:a"]⟩),
          ("c2", ⟨⟨"u2", "user", []⟩, 0, 0, ["public:a"]⟩),
          ("c3", ⟨⟨"u3", "user", []⟩, 0, 0, ["public:a"]⟩)],
         [("public:a", ⟨"public:a", ["c1", "c2", "c3"], 0, 0⟩)], [], []⟩
        "c1" "public:a" "hello" "m1" true "uuid1" 9 (fun _ => true)).state ∧
      ∀ c ∈ (["c1", "c2", "c3"] : List String), (fun i => !(i == "c2")) c = true →
        c ∈ (handlePublish ⟨[("c1", ⟨⟨"u1", "user", []⟩, 0, 0, ["public:a"]⟩),
          ("c2", ⟨⟨"u2", "user", []⟩, 0, 0, ["public:a"]⟩),
          ("c3", ⟨⟨"u3", "user", []⟩, 0, 0, ["public:a"]⟩)],
         [("public:a", ⟨"public:a", ["c1", "c2", "c3"], 0, 0⟩)], [], []⟩
        "c1" "public:a" "hello" "m1" true "uuid1" 9 (fun i => !(i == "c2"))).delivered) :=
  ⟨⟨by decide, by decide, by decide⟩,
    publish_fanout_isolated _ "c1" "public:a" "hello" "m1" "uuid1" 9
      ⟨⟨"u1", "user", []⟩, 0, 0, ["public:a"]⟩ ⟨"public:a", ["c1", "c2", "c3"], 0, 0⟩
      (by decide) (by decide) (by decide) (fun i => !(i == "c2")) (fun _ => true)⟩

/-- C10: removing a topic's directory entry — whether by the last
unsubscribe or by a disconnect — leaves the per-topic sequence-counter map
untouched, as does a subscribe that re-creates the topic; and the next
sequence number handed out for a topic always continues from the stored
counter (`stored + 1`), never restarting at 1. -/
theorem sequence_counters_survive_topic_removal (s : RState)
    (cid cid2 t mid mid2 : String) (now : Nat) :
    (handleUnsubscribe s cid t mid).1.sequenceNumbers = s.sequenceNumbers ∧
    (handleDisconnect s cid).sequenceNumbers = s.sequenceNumbers ∧
    (handleSubscribe s cid2 t mid2 now).1.sequenceNumbers = s.sequenceNumbers ∧
    (getNextSequenceNumber s.sequenceNumbers t).1 = (mget t s.sequenceNumbers).getD 0 + 1 := by
  refine ⟨?_, ?_, ?_, rfl⟩
  · unfold handleUnsubscribe
    cases hval : mget cid s.connections with
    | none => rfl
    | some c =>
      cases hch : mget t s.channels with
      | none => rfl
      | some ch => rfl
  · unfold handleDisconnect
    cases hval : mget cid s.connections with
    | none => rfl
    | some c => rfl
  · unfold handleSubscribe
    cases hval : mget cid2 s.connections with
    | none => rfl
    | some c =>
      by_cases h : hasPermission c.user t "subscribe" = true
      · simp only [if_pos h]
      · simp only [if_neg h]

/-- Effect of one event on topic `t`'s counter and published sequence
numbers: either the event publishes nothing on `t` and leaves `t`'s
counter entry unchanged, or it publishes exactly the message numbered
`counter + 1` and stores that value as the new counter. -/
theorem pubSeqOut_spec (s : RState) (t : String) (e : Event) :
    (pubSeqOut s t e = [] ∧
      mget t (step s e).sequenceNumbers = mget t s.sequenceNumbers) ∨
    (pubSeqOut s t e = [(mget t s.sequenceNumbers).getD 0 + 1] ∧
      mget t (step s e).sequenceNumbers
        = some ((mget t s.sequenceNumbers).getD 0 + 1)) := by
  cases e with
  | connect cid u now => exact Or.inl ⟨rfl, rfl⟩
  | subscribe cid t' mid now =>
    left
    refine ⟨rfl, ?_⟩
    show mget t (handleSubscribe s cid t' mid now).1.sequenceNumbers = _
    unfold handleSubscribe
    cases hval : mget cid s.connections with
    | none => rfl
    | some c =>
      by_cases h : hasPermission c.user t' "subscribe" = true
      · simp only [if_pos h]
      · simp only [if_neg h]
  | unsubscribe cid t' mid =>
    left
    refine ⟨rfl, ?_⟩
    show mget t (handleUnsubscribe s cid t' mid).1.sequenceNumbers = _
    unfold handleUnsubscribe
    cases hval : mget cid s.connections with
    | none => rfl
    | some c =>
      cases hch : mget t' s.channels with
      | none => rfl
      | some ch => rfl
  | heartbeat cid now =>
    left
    refine ⟨rfl, ?_⟩
    show mget t (handleHeartbeat s cid now).sequenceNumbers = _
    unfold handleHeartbeat
    cases hval : mget cid s.connections with
    | none => rfl
    | some c => rfl
  | disconnect cid reason =>
    left
    refine ⟨rfl, ?_⟩
    show mget t (handleDisconnect s cid).sequenceNumbers = _
    unfold handleDisconnect
    cases hval : mget cid s.connections with
    | none => rfl
    | some c => rfl
  | publish cid t' p mid ack uuid now sendOk =>
    have hstep : step s (.publish cid t' p mid ack uuid now sendOk)
        = (handlePublish s cid t' p mid ack uuid now sendOk).state := rfl
    have hout : pubSeqOut s t (.publish cid t' p mid ack uuid now sendOk)
        = (match (handlePublish s cid t' p mid ack uuid now sendOk).emitted with
           | some m => if m.topic = t then [m.seq] else []
           | none => []) := rfl
    rw [hstep, hout]
    unfold handlePublish
    cases hval : mget cid s.connections with
    | none => exact Or.inl ⟨rfl, rfl⟩
    | some c =>
      by_cases h : hasPermission c.user t' "publish" = true
      · simp only [if_pos h]
        cases hch : mget t' s.channels with
        | none => exact Or.inl ⟨rfl, rfl⟩
        | some ch =>
          by_cases ht : t' = t
          · subst ht
            right
            refine ⟨?_, ?_⟩
            · simp [getNextSequenceNumber]
            · show mget t' (mset t' ((mget t' s.sequenceNumbers).getD 0 + 1)
                s.sequenceNumbers) = _
              rw [mget_mset]
              simp
          · left
            have hne : t ≠ t' := fun h' => ht h'.symm
            refine ⟨?_, ?_⟩
            · simp [ht]
            · show mget t (mset t' ((mget t' s.sequenceNumbers).getD 0 + 1)
                s.sequenceNumbers) = _
              rw [mget_mset]
              simp [hne]
      · simp only [if_neg h]
        left
        refine ⟨?_, ?_⟩ <;> simp

/-- Along any event trace, the sequence numbers published on a topic form
the consecutive run starting just above the topic's current counter. -/
theorem seqTrace_consecutive (es : List Event) : ∀ (s : RState) (t : String),
    seqTrace s t es
      = consecSeq ((mget t s.sequenceNumbers).getD 0 + 1) (seqTrace s t es).length := by
  induction es with
  | nil => intro s t; rfl
  | cons e rest ih =>
    intro s t
    rcases pubSeqOut_spec s t e with ⟨h1, h2⟩ | ⟨h1, h2⟩
    · show pubSeqOut s t e ++ seqTrace (step s e) t rest = _
      rw [h1, List.nil_append]
      have := ih (step s e) t
      rw [h2] at this
      calc seqTrace (step s e) t rest
          = consecSeq ((mget t s.sequenceNumbers).getD 0 + 1)
              (seqTrace (step s e) t rest).length := this
        _ = consecSeq ((mget t s.sequenceNumbers).getD 0 + 1)
              (seqTrace s t (e :: rest)).length := by
            show _ = consecSeq _ (pubSeqOut s t e ++ seqTrace (step s e) t rest).length
            rw [h1, List.nil_append]
    · show pubSeqOut s t e ++ seqTrace (step s e) t rest = _
      rw [h1]
      have := ih (step s e) t
      rw [h2] at this
      have hlen : (seqTrace s t (e :: rest)).length
          = (seqTrace (step s e) t rest).length + 1 := by
        show (pubSeqOut s t e ++ seqTrace (step s e) t rest).length = _
        rw [h1]
        simp [Nat.add_comm]
      rw [hlen]
      show ((mget t s.sequenceNumbers).getD 0 + 1) :: seqTrace (step s e) t rest
          = consecSeq ((mget t s.sequenceNumbers).getD 0 + 1)
              ((seqTrace (step s e) t rest).length + 1)
      rw [consecSeq]
      refine congrArg (List.cons _) ?_
      simpa using this

/-- C2: for every topic and every event trace from the fresh service, the
sequence numbers assigned to the successively published messages on that
topic (in real-time publish order at the engine) are exactly
`1, 2, 3, …` — strictly increasing, with no repeats and no gaps, starting
from 1 for the first message published on that topic name. -/
theorem publish_sequence_numbers_consecutive_from_one (es : List Event) (t : String) :
    seqTrace initState t es = consecSeq 1 (seqTrace initState t es).length :=
  seqTrace_consecutive es initState t

/-- The fresh service satisfies the consistency invariant. -/
theorem stateInv_init : StateInv initState := by
  refine ⟨?_, ?_, ?_, ?_, ?_, ?_, ?_⟩ <;> simp [initState, mget]

/-- Registering a fresh connection id preserves the invariant. -/
theorem stateInv_connect (s : RState) (cid : String) (u : User) (now : Nat)
    (h : StateInv s) (hfresh : mget cid s.connections = none) :
    StateInv (handleConnection s cid u now).1 := by
  refine ⟨?_, h.chanKeys, h.subsNodup, ?_, h.chanNonempty, ?_, ?_⟩
  · exact nodup_keys_mset cid _ s.connections h.connKeys
  · intro c conn hc
    rw [show (handleConnection s cid u now).1.connections
        = mset cid ⟨u, now, now, []⟩ s.connections from rfl, mget_mset] at hc
    by_cases hcc : c = cid
    · rw [if_pos hcc] at hc
      obtain rfl : (⟨u, now, now, []⟩ : Conn) = conn := by injection hc
      exact List.nodup_nil
    · rw [if_neg hcc] at hc
      exact h.memNodup c conn hc
  · intro c conn t hc hm
    rw [show (handleConnection s cid u now).1.connections
        = mset cid ⟨u, now, now, []⟩ s.connections from rfl, mget_mset] at hc
    by_cases hcc : c = cid
    · rw [if_pos hcc] at hc
      obtain rfl : (⟨u, now, now, []⟩ : Conn) = conn := by injection hc
      exact absurd hm (List.not_mem_nil t)
    · rw [if_neg hcc] at hc
      exact h.connToChan c conn t hc hm
  · intro t ch c hch hm
    obtain ⟨conn, hconn, hmem⟩ := h.chanToConn t ch c hch hm
    by_cases hcc : c = cid
    · subst hcc
      rw [hfresh] at hconn
      exact absurd hconn (by simp)
    · refine ⟨conn, ?_, hmem⟩
      rw [show (handleConnection s cid u now).1.connections
          = mset cid ⟨u, now, now, []⟩ s.connections from rfl, mget_mset, if_neg hcc]
      exact hconn

/-- Heartbeats preserve the invariant (only `lastActivity` changes). -/
theorem stateInv_heartbeat (s : RState) (cid : String) (now : Nat)
    (h : StateInv s) : StateInv (handleHeartbeat s cid now) := by
  unfold handleHeartbeat
  cases hval : mget cid s.connections with
  | none => exact h
  | some conn =>
    refine ⟨?_, h.chanKeys, h.subsNodup, ?_, h.chanNonempty, ?_, ?_⟩
    · exact nodup_keys_mset cid _ s.connections h.connKeys
    · intro c conn₀ hc
      rw [mget_mset] at hc
      by_cases hcc : c = cid
      · rw [if_pos hcc] at hc
        obtain rfl : ({ conn with lastActivity := now } : Conn) = conn₀ := by injection hc
        exact h.memNodup cid conn hval
      · rw [if_neg hcc] at hc
        exact h.memNodup c conn₀ hc
    · intro c conn₀ t hc hm
      rw [mget_mset] at hc
      by_cases hcc : c = cid
      · subst hcc
        rw [if_pos rfl] at hc
        obtain rfl : ({ conn with lastActivity := now } : Conn) = conn₀ := by injection hc
        exact h.connToChan c conn t hval hm
      · rw [if_neg hcc] at hc
        exact h.connToChan c conn₀ t hc hm
    · intro t ch c hch hm
      obtain ⟨conn₀, hconn, hmem⟩ := h.chanToConn t ch c hch hm
      by_cases hcc : c = cid
      · subst hcc
        rw [hval] at hconn
        obtain rfl : conn = conn₀ := by injection hconn
        exact ⟨{ conn with lastActivity := now }, by rw [mget_mset, if_pos rfl], hmem⟩
      · exact ⟨conn₀, by rw [mget_mset, if_neg hcc]; exact hconn, hmem⟩

/-- Publishing preserves the invariant (only `messageCount` and the
sequence counters change). -/
theorem stateInv_publish (s : RState) (cid topic payload mid uuid : String)
    (ack : Bool) (now : Nat) (sendOk : String → Bool) (h : StateInv s) :
    StateInv (handlePublish s cid topic payload mid ack uuid now sendOk).state := by
  unfold handlePublish
  cases hval : mget cid s.connections with
  | none => exact h
  | some conn =>
    by_cases hp : hasPermission conn.user topic "publish" = true
    · simp only [if_pos hp]
      cases hch : mget topic s.channels with
      | none => exact h
      | some ch =>
        refine ⟨h.connKeys, ?_, ?_, h.memNodup, ?_, ?_, ?_⟩
        · exact nodup_keys_mset topic _ s.channels h.chanKeys
        · intro t ch₀ hc
          rw [mget_mset] at hc
          by_cases ht : t = topic
          · rw [if_pos ht] at hc
            obtain rfl : ({ ch with messageCount := ch.messageCount + 1 } : Channel) = ch₀ :=
              by injection hc
            exact h.subsNodup topic ch hch
          · rw [if_neg ht] at hc
            exact h.subsNodup t ch₀ hc
        · intro t ch₀ hc
          rw [mget_mset] at hc
          by_cases ht : t = topic
          · rw [if_pos ht] at hc
            obtain rfl : ({ ch with messageCount := ch.messageCount + 1 } : Channel) = ch₀ :=
              by injection hc
            exact h.chanNonempty topic ch hch
          · rw [if_neg ht] at hc
            exact h.chanNonempty t ch₀ hc
        · intro c conn₀ t hc hm
          obtain ⟨ch₀, hch₀, hmem⟩ := h.connToChan c conn₀ t hc hm
          by_cases ht : t = topic
          · subst ht
            rw [hch] at hch₀
            obtain rfl : ch = ch₀ := by injection hch₀
            exact ⟨{ ch with messageCount := ch.messageCount + 1 },
              by rw [mget_mset, if_pos rfl], hmem⟩
          · exact ⟨ch₀, by rw [mget_mset, if_neg ht]; exact hch₀, hmem⟩
        · intro t ch₀ c hc hm
          rw [mget_mset] at hc
          by_cases ht : t = topic
          · subst ht
            rw [if_pos rfl] at hc
            obtain rfl : ({ ch with messageCount := ch.messageCount + 1 } : Channel) = ch₀ :=
              by injection hc
            exact h.chanToConn t ch c hch hm
          · rw [if_neg ht] at hc
            exact h.chanToConn t ch₀ c hc hm
    · simp only [if_neg hp]
      exact h

/-- Two successful lookups of the same key agree. -/
theorem mget_some_inj {α : Type} {k : String} {l : List (String × α)} {v w : α}
    (h1 : mget k l = some v) (h2 : mget k l = some w) : v = w := by
  rw [h1] at h2
  injection h2

/-- Subscribing preserves the invariant: both sides of the relation are
extended together and the (possibly fresh) channel entry gets a
subscriber. -/
theorem stateInv_subscribe (s : RState) (cid t mid : String) (now : Nat)
    (h : StateInv s) : StateInv (handleSubscribe s cid t mid now).1 := by
  unfold handleSubscribe
  cases hval : mget cid s.connections with
  | none => exact h
  | some conn =>
    by_cases hp : hasPermission conn.user t "subscribe" = true
    · simp only [if_pos hp]
      cases hbase : mget t s.channels with
      | none =>
        refine ⟨?_, ?_, ?_, ?_, ?_, ?_, ?_⟩
        · exact nodup_keys_mset cid _ s.connections h.connKeys
        · exact nodup_keys_mset t _ s.channels h.chanKeys
        · intro t₁ ch₁ hc
          rw [mget_mset] at hc
          by_cases ht : t₁ = t
          · rw [if_pos ht] at hc
            obtain rfl : ((⟨t, sadd cid [], now, 0⟩ : Channel)) = ch₁ := by injection hc
            exact nodup_sadd cid [] List.nodup_nil
          · rw [if_neg ht] at hc
            exact h.subsNodup t₁ ch₁ hc
        · intro c₁ conn₁ hc
          rw [mget_mset] at hc
          by_cases hcc : c₁ = cid
          · rw [if_pos hcc] at hc
            obtain rfl : ((⟨conn.user, conn.connectedAt, conn.lastActivity, sadd t conn.subscribedChannels⟩ : Conn)) = conn₁ := by injection hc
            exact nodup_sadd t conn.subscribedChannels (h.memNodup cid conn hval)
          · rw [if_neg hcc] at hc
            exact h.memNodup c₁ conn₁ hc
        · intro t₁ ch₁ hc
          rw [mget_mset] at hc
          by_cases ht : t₁ = t
          · rw [if_pos ht] at hc
            obtain rfl : ((⟨t, sadd cid [], now, 0⟩ : Channel)) = ch₁ := by injection hc
            exact sadd_ne_nil cid []
          · rw [if_neg ht] at hc
            exact h.chanNonempty t₁ ch₁ hc
        · intro c₁ conn₁ t₁ hc hm
          rw [mget_mset] at hc
          by_cases hcc : c₁ = cid
          · rw [if_pos hcc] at hc
            obtain rfl : ((⟨conn.user, conn.connectedAt, conn.lastActivity, sadd t conn.subscribedChannels⟩ : Conn)) = conn₁ := by injection hc
            by_cases ht : t₁ = t
            · refine ⟨(⟨t, sadd cid [], now, 0⟩ : Channel), ?_, ?_⟩
              · rw [mget_mset, if_pos ht]
                rfl
              · rw [hcc]
                exact (mem_sadd cid cid []).mpr (Or.inl rfl)
            · have hm' : t₁ ∈ conn.subscribedChannels := by
                rcases (mem_sadd t₁ t conn.subscribedChannels).mp hm with h' | h'
                · exact absurd h' ht
                · exact h'
              obtain ⟨ch₁, hch₁, hmem⟩ := h.connToChan cid conn t₁ hval hm'
              refine ⟨ch₁, ?_, ?_⟩
              · rw [mget_mset, if_neg ht]
                exact hch₁
              · rw [hcc]
                exact hmem
          · rw [if_neg hcc] at hc
            obtain ⟨ch₁, hch₁, hmem⟩ := h.connToChan c₁ conn₁ t₁ hc hm
            by_cases ht : t₁ = t
            · rw [ht, hbase] at hch₁
              exact absurd hch₁ (by simp)
            · refine ⟨ch₁, ?_, hmem⟩
              rw [mget_mset, if_neg ht]
              exact hch₁
        · intro t₁ ch₁ c₁ hc hm
          rw [mget_mset] at hc
          by_cases ht : t₁ = t
          · rw [if_pos ht] at hc
            obtain rfl : ((⟨t, sadd cid [], now, 0⟩ : Channel)) = ch₁ := by injection hc
            have hcc : c₁ = cid := by
              rcases (mem_sadd c₁ cid []).mp hm with h' | h'
              · exact h'
              · exact absurd h' (List.not_mem_nil c₁)
            refine ⟨(⟨conn.user, conn.connectedAt, conn.lastActivity, sadd t conn.subscribedChannels⟩ : Conn), ?_, ?_⟩
            · rw [mget_mset, if_pos hcc]
            · exact (mem_sadd t₁ t conn.subscribedChannels).mpr (Or.inl ht)
          · rw [if_neg ht] at hc
            obtain ⟨conn₁, hconn₁, hmem₁⟩ := h.chanToConn t₁ ch₁ c₁ hc hm
            by_cases hcc : c₁ = cid
            · rw [hcc, hval] at hconn₁
              obtain rfl : conn = conn₁ := by injection hconn₁
              refine ⟨(⟨conn.user, conn.connectedAt, conn.lastActivity, sadd t conn.subscribedChannels⟩ : Conn), ?_, ?_⟩
              · rw [mget_mset, if_pos hcc]
              · exact (mem_sadd t₁ t conn.subscribedChannels).mpr (Or.inr hmem₁)
            · refine ⟨conn₁, ?_, hmem₁⟩
              rw [mget_mset, if_neg hcc]
              exact hconn₁
      | some ch =>
        refine ⟨?_, ?_, ?_, ?_, ?_, ?_, ?_⟩
        · exact nodup_keys_mset cid _ s.connections h.connKeys
        · exact nodup_keys_mset t _ s.channels h.chanKeys
        · intro t₁ ch₁ hc
          rw [mget_mset] at hc
          by_cases ht : t₁ = t
          · rw [if_pos ht] at hc
            obtain rfl : ((⟨ch.name, sadd cid ch.subscribers, ch.createdAt, ch.messageCount⟩ : Channel)) = ch₁ := by injection hc
            exact nodup_sadd cid ch.subscribers (h.subsNodup t ch hbase)
          · rw [if_neg ht] at hc
            exact h.subsNodup t₁ ch₁ hc
        · intro c₁ conn₁ hc
          rw [mget_mset] at hc
          by_cases hcc : c₁ = cid
          · rw [if_pos hcc] at hc
            obtain rfl : ((⟨conn.user, conn.connectedAt, conn.lastActivity, sadd t conn.subscribedChannels⟩ : Conn)) = conn₁ := by injection hc
            exact nodup_sadd t conn.subscribedChannels (h.memNodup cid conn hval)
          · rw [if_neg hcc] at hc
            exact h.memNodup c₁ conn₁ hc
        · intro t₁ ch₁ hc
          rw [mget_mset] at hc
          by_cases ht : t₁ = t
          · rw [if_pos ht] at hc
            obtain rfl : ((⟨ch.name, sadd cid ch.subscribers, ch.createdAt, ch.messageCount⟩ : Channel)) = ch₁ := by injection hc
            exact sadd_ne_nil cid ch.subscribers
          · rw [if_neg ht] at hc
            exact h.chanNonempty t₁ ch₁ hc
        · intro c₁ conn₁ t₁ hc hm
          rw [mget_mset] at hc
          by_cases hcc : c₁ = cid
          · rw [if_pos hcc] at hc
            obtain rfl : ((⟨conn.user, conn.connectedAt, conn.lastActivity, sadd t conn.subscribedChannels⟩ : Conn)) = conn₁ := by injection hc
            by_cases ht : t₁ = t
            · refine ⟨(⟨ch.name, sadd cid ch.subscribers, ch.createdAt, ch.messageCount⟩ : Channel), ?_, ?_⟩
              · rw [mget_mset, if_pos ht]
                rfl
              · rw [hcc]
                exact (mem_sadd cid cid ch.subscribers).mpr (Or.inl rfl)
            · have hm' : t₁ ∈ conn.subscribedChannels := by
                rcases (mem_sadd t₁ t conn.subscribedChannels).mp hm with h' | h'
                · exact absurd h' ht
                · exact h'
              obtain ⟨ch₁, hch₁, hmem⟩ := h.connToChan cid conn t₁ hval hm'
              refine ⟨ch₁, ?_, ?_⟩
              · rw [mget_mset, if_neg ht]
                exact hch₁
              · rw [hcc]
                exact hmem
          · rw [if_neg hcc] at hc
            obtain ⟨ch₁, hch₁, hmem⟩ := h.connToChan c₁ conn₁ t₁ hc hm
            by_cases ht : t₁ = t
            · have : ch = ch₁ := mget_some_inj hbase (ht ▸ hch₁)
              refine ⟨(⟨ch.name, sadd cid ch.subscribers, ch.createdAt, ch.messageCount⟩ : Channel), ?_, ?_⟩
              · rw [mget_mset, if_pos ht]
                rfl
              · exact (mem_sadd c₁ cid ch.subscribers).mpr (Or.inr (this ▸ hmem))
            · refine ⟨ch₁, ?_, hmem⟩
              rw [mget_mset, if_neg ht]
              exact hch₁
        · intro t₁ ch₁ c₁ hc hm
          rw [mget_mset] at hc
          by_cases ht : t₁ = t
          · rw [if_pos ht] at hc
            obtain rfl : ((⟨ch.name, sadd cid ch.subscribers, ch.createdAt, ch.messageCount⟩ : Channel)) = ch₁ := by injection hc
            by_cases hcc : c₁ = cid
            · refine ⟨(⟨conn.user, conn.connectedAt, conn.lastActivity, sadd t conn.subscribedChannels⟩ : Conn), ?_, ?_⟩
              · rw [mget_mset, if_pos hcc]
              · exact (mem_sadd t₁ t conn.subscribedChannels).mpr (Or.inl ht)
            · have hm' : c₁ ∈ ch.subscribers := by
                rcases (mem_sadd c₁ cid ch.subscribers).mp hm with h' | h'
                · exact absurd h' hcc
                · exact h'
              obtain ⟨conn₁, hconn₁, hmem₁⟩ := h.chanToConn t ch c₁ hbase hm'
              refine ⟨conn₁, ?_, ?_⟩
              · rw [mget_mset, if_neg hcc]
                exact hconn₁
              · rw [ht]
                exact hmem₁
          · rw [if_neg ht] at hc
            obtain ⟨conn₁, hconn₁, hmem₁⟩ := h.chanToConn t₁ ch₁ c₁ hc hm
            by_cases hcc : c₁ = cid
            · rw [hcc, hval] at hconn₁
              obtain rfl : conn = conn₁ := by injection hconn₁
              refine ⟨(⟨conn.user, conn.connectedAt, conn.lastActivity, sadd t conn.subscribedChannels⟩ : Conn), ?_, ?_⟩
              · rw [mget_mset, if_pos hcc]
              · exact (mem_sadd t₁ t conn.subscribedChannels).mpr (Or.inr hmem₁)
            · refine ⟨conn₁, ?_, hmem₁⟩
              rw [mget_mset, if_neg hcc]
              exact hconn₁
    · simp only [if_neg hp]
      exact h

/-- Unsubscribing preserves the invariant: both sides of the relation are
shrunk together and an emptied channel entry is deleted. -/
theorem stateInv_unsubscribe (s : RState) (cid t mid : String)
    (h : StateInv s) : StateInv (handleUnsubscribe s cid t mid).1 := by
  unfold handleUnsubscribe
  cases hval : mget cid s.connections with
  | none => exact h
  | some conn =>
    cases hch : mget t s.channels with
    | none =>
      refine ⟨?_, h.chanKeys, h.subsNodup, ?_, h.chanNonempty, ?_, ?_⟩
      · exact nodup_keys_mset cid _ s.connections h.connKeys
      · intro c₁ conn₁ hc
        rw [mget_mset] at hc
        by_cases hcc : c₁ = cid
        · rw [if_pos hcc] at hc
          obtain rfl : ((⟨conn.user, conn.connectedAt, conn.lastActivity, sdel t conn.subscribedChannels⟩ : Conn)) = conn₁ := by injection hc
          exact nodup_sdel t conn.subscribedChannels (h.memNodup cid conn hval)
        · rw [if_neg hcc] at hc
          exact h.memNodup c₁ conn₁ hc
      · intro c₁ conn₁ t₁ hc hm
        rw [mget_mset] at hc
        by_cases hcc : c₁ = cid
        · rw [if_pos hcc] at hc
          obtain rfl : ((⟨conn.user, conn.connectedAt, conn.lastActivity, sdel t conn.subscribedChannels⟩ : Conn)) = conn₁ := by injection hc
          have hm' : t₁ ∈ conn.subscribedChannels := mem_of_mem_sdel hm
          obtain ⟨ch₁, hch₁, hmem⟩ := h.connToChan cid conn t₁ hval hm'
          exact ⟨ch₁, hch₁, hcc ▸ hmem⟩
        · rw [if_neg hcc] at hc
          exact h.connToChan c₁ conn₁ t₁ hc hm
      · intro t₁ ch₁ c₁ hc hm
        obtain ⟨conn₁, hconn₁, hmem₁⟩ := h.chanToConn t₁ ch₁ c₁ hc hm
        by_cases hcc : c₁ = cid
        · rw [hcc, hval] at hconn₁
          obtain rfl : conn = conn₁ := by injection hconn₁
          refine ⟨(⟨conn.user, conn.connectedAt, conn.lastActivity, sdel t conn.subscribedChannels⟩ : Conn), ?_, ?_⟩
          · rw [mget_mset, if_pos hcc]
          · have ht : t₁ ≠ t := by
              intro hh
              rw [hh, hch] at hc
              exact absurd hc (by simp)
            exact (mem_sdel t₁ t conn.subscribedChannels
              (h.memNodup cid conn hval)).mpr ⟨hmem₁, ht⟩
        · refine ⟨conn₁, ?_, hmem₁⟩
          rw [mget_mset, if_neg hcc]
          exact hconn₁
    | some ch =>
      by_cases hlen : (sdel cid ch.subscribers).length = 0
      · simp only [if_pos hlen]
        have hnil : sdel cid ch.subscribers = [] := List.length_eq_zero.mp hlen
        refine ⟨?_, ?_, ?_, ?_, ?_, ?_, ?_⟩
        · exact nodup_keys_mset cid _ s.connections h.connKeys
        · exact nodup_keys_mdel t s.channels h.chanKeys
        · intro t₁ ch₁ hc
          rw [mget_mdel t₁ t s.channels h.chanKeys] at hc
          by_cases ht : t₁ = t
          · rw [if_pos ht] at hc
            exact absurd hc (by simp)
          · rw [if_neg ht] at hc
            exact h.subsNodup t₁ ch₁ hc
        · intro c₁ conn₁ hc
          rw [mget_mset] at hc
          by_cases hcc : c₁ = cid
          · rw [if_pos hcc] at hc
            obtain rfl : ((⟨conn.user, conn.connectedAt, conn.lastActivity, sdel t conn.subscribedChannels⟩ : Conn)) = conn₁ := by injection hc
            exact nodup_sdel t conn.subscribedChannels (h.memNodup cid conn hval)
          · rw [if_neg hcc] at hc
            exact h.memNodup c₁ conn₁ hc
        · intro t₁ ch₁ hc
          rw [mget_mdel t₁ t s.channels h.chanKeys] at hc
          by_cases ht : t₁ = t
          · rw [if_pos ht] at hc
            exact absurd hc (by simp)
          · rw [if_neg ht] at hc
            exact h.chanNonempty t₁ ch₁ hc
        · intro c₁ conn₁ t₁ hc hm
          rw [mget_mset] at hc
          by_cases hcc : c₁ = cid
          · rw [if_pos hcc] at hc
            obtain rfl : ((⟨conn.user, conn.connectedAt, conn.lastActivity, sdel t conn.subscribedChannels⟩ : Conn)) = conn₁ := by injection hc
            obtain ⟨hm', ht⟩ := (mem_sdel t₁ t conn.subscribedChannels
              (h.memNodup cid conn hval)).mp hm
            obtain ⟨ch₁, hch₁, hmem⟩ := h.connToChan cid conn t₁ hval hm'
            refine ⟨ch₁, ?_, hcc ▸ hmem⟩
            rw [mget_mdel_ne ht s.channels]
            exact hch₁
          · rw [if_neg hcc] at hc
            obtain ⟨ch₁, hch₁, hmem⟩ := h.connToChan c₁ conn₁ t₁ hc hm
            by_cases ht : t₁ = t
            · obtain rfl : ch = ch₁ := mget_some_inj hch (ht ▸ hch₁)
              have : c₁ ∈ sdel cid ch.subscribers :=
                (mem_sdel c₁ cid ch.subscribers (h.subsNodup t ch hch)).mpr ⟨hmem, hcc⟩
              rw [hnil] at this
              exact absurd this (List.not_mem_nil c₁)
            · refine ⟨ch₁, ?_, hmem⟩
              rw [mget_mdel_ne ht s.channels]
              exact hch₁
        · intro t₁ ch₁ c₁ hc hm
          rw [mget_mdel t₁ t s.channels h.chanKeys] at hc
          by_cases ht : t₁ = t
          · rw [if_pos ht] at hc
            exact absurd hc (by simp)
          · rw [if_neg ht] at hc
            obtain ⟨conn₁, hconn₁, hmem₁⟩ := h.chanToConn t₁ ch₁ c₁ hc hm
            by_cases hcc : c₁ = cid
            · rw [hcc, hval] at hconn₁
              obtain rfl : conn = conn₁ := by injection hconn₁
              refine ⟨(⟨conn.user, conn.connectedAt, conn.lastActivity, sdel t conn.subscribedChannels⟩ : Conn), ?_, ?_⟩
              · rw [mget_mset, if_pos hcc]
              · exact (mem_sdel t₁ t conn.subscribedChannels
                  (h.memNodup cid conn hval)).mpr ⟨hmem₁, ht⟩
            · refine ⟨conn₁, ?_, hmem₁⟩
              rw [mget_mset, if_neg hcc]
              exact hconn₁
      · simp only [if_neg hlen]
        refine ⟨?_, ?_, ?_, ?_, ?_, ?_, ?_⟩
        · exact nodup_keys_mset cid _ s.connections h.connKeys
        · exact nodup_keys_mset t _ s.channels h.chanKeys
        · intro t₁ ch₁ hc
          rw [mget_mset] at hc
          by_cases ht : t₁ = t
          · rw [if_pos ht] at hc
            obtain rfl : ((⟨ch.name, sdel cid ch.subscribers, ch.createdAt, ch.messageCount⟩ : Channel)) = ch₁ := by injection hc
            exact nodup_sdel cid ch.subscribers (h.subsNodup t ch hch)
          · rw [if_neg ht] at hc
            exact h.subsNodup t₁ ch₁ hc
        · intro c₁ conn₁ hc
          rw [mget_mset] at hc
          by_cases hcc : c₁ = cid
          · rw [if_pos hcc] at hc
            obtain rfl : ((⟨conn.user, conn.connectedAt, conn.lastActivity, sdel t conn.subscribedChannels⟩ : Conn)) = conn₁ := by injection hc
            exact nodup_sdel t conn.subscribedChannels (h.memNodup cid conn hval)
          · rw [if_neg hcc] at hc
            exact h.memNodup c₁ conn₁ hc
        · intro t₁ ch₁ hc
          rw [mget_mset] at hc
          by_cases ht : t₁ = t
          · rw [if_pos ht] at hc
            obtain rfl : ((⟨ch.name, sdel cid ch.subscribers, ch.createdAt, ch.messageCount⟩ : Channel)) = ch₁ := by injection hc
            intro hnil
            exact hlen (by rw [List.length_eq_zero]; exact hnil)
          · rw [if_neg ht] at hc
            exact h.chanNonempty t₁ ch₁ hc
        · intro c₁ conn₁ t₁ hc hm
          rw [mget_mset] at hc
          by_cases hcc : c₁ = cid
          · rw [if_pos hcc] at hc
            obtain rfl : ((⟨conn.user, conn.connectedAt, conn.lastActivity, sdel t conn.subscribedChannels⟩ : Conn)) = conn₁ := by injection hc
            obtain ⟨hm', ht⟩ := (mem_sdel t₁ t conn.subscribedChannels
              (h.memNodup cid conn hval)).mp hm
            obtain ⟨ch₁, hch₁, hmem⟩ := h.connToChan cid conn t₁ hval hm'
            refine ⟨ch₁, ?_, hcc ▸ hmem⟩
            rw [mget_mset, if_neg ht]
            exact hch₁
          · rw [if_neg hcc] at hc
            obtain ⟨ch₁, hch₁, hmem⟩ := h.connToChan c₁ conn₁ t₁ hc hm
            by_cases ht : t₁ = t
            · obtain rfl : ch = ch₁ := mget_some_inj hch (ht ▸ hch₁)
              refine ⟨(⟨ch.name, sdel cid ch.subscribers, ch.createdAt, ch.messageCount⟩ : Channel), ?_, ?_⟩
              · rw [mget_mset, if_pos ht]
              · exact (mem_sdel c₁ cid ch.subscribers (h.subsNodup t ch hch)).mpr ⟨hmem, hcc⟩
            · refine ⟨ch₁, ?_, hmem⟩
              rw [mget_mset, if_neg ht]
              exact hch₁
        · intro t₁ ch₁ c₁ hc hm
          rw [mget_mset] at hc
          by_cases ht : t₁ = t
          · rw [if_pos ht] at hc
            obtain rfl : ((⟨ch.name, sdel cid ch.subscribers, ch.createdAt, ch.messageCount⟩ : Channel)) = ch₁ := by injection hc
            obtain ⟨hm', hcc⟩ := (mem_sdel c₁ cid ch.subscribers (h.subsNodup t ch hch)).mp hm
            obtain ⟨conn₁, hconn₁, hmem₁⟩ := h.chanToConn t ch c₁ hch hm'
            refine ⟨conn₁, ?_, ht ▸ hmem₁⟩
            rw [mget_mset, if_neg hcc]
            exact hconn₁
          · rw [if_neg ht] at hc
            obtain ⟨conn₁, hconn₁, hmem₁⟩ := h.chanToConn t₁ ch₁ c₁ hc hm
            by_cases hcc : c₁ = cid
            · rw [hcc, hval] at hconn₁
              obtain rfl : conn = conn₁ := by injection hconn₁
              refine ⟨(⟨conn.user, conn.connectedAt, conn.lastActivity, sdel t conn.subscribedChannels⟩ : Conn), ?_, ?_⟩
              · rw [mget_mset, if_pos hcc]
              · exact (mem_sdel t₁ t conn.subscribedChannels
                  (h.memNodup cid conn hval)).mpr ⟨hmem₁, ht⟩
            · refine ⟨conn₁, ?_, hmem₁⟩
              rw [mget_mset, if_neg hcc]
              exact hconn₁

/-- Evaluating `removeFromChannel` on an absent topic is a no-op. -/
theorem removeFromChannel_none (cid : String) (channels : List (String × Channel))
    (t₀ : String) (hch : mget t₀ channels = none) :
    removeFromChannel cid channels t₀ = channels := by
  unfold removeFromChannel
  rw [hch]

/-- Evaluating `removeFromChannel` deletes the entry when the last subscriber leaves. -/
theorem removeFromChannel_some_del (cid : String) (channels : List (String × Channel))
    (t₀ : String) (ch : Channel) (hch : mget t₀ channels = some ch)
    (hlen : (sdel cid ch.subscribers).length = 0) :
    removeFromChannel cid channels t₀ = mdel t₀ channels := by
  unfold removeFromChannel
  rw [hch]
  exact if_pos hlen

/-- Evaluating `removeFromChannel` shrinks the subscriber set when others remain. -/
theorem removeFromChannel_some_keep (cid : String) (channels : List (String × Channel))
    (t₀ : String) (ch : Channel) (hch : mget t₀ channels = some ch)
    (hlen : ¬ (sdel cid ch.subscribers).length = 0) :
    removeFromChannel cid channels t₀
      = mset t₀ ⟨ch.name, sdel cid ch.subscribers, ch.createdAt, ch.messageCount⟩ channels := by
  unfold removeFromChannel
  rw [hch]
  exact if_neg hlen

/-- Evaluating `removeFromChannel` leaves every other topic's entry alone. -/
theorem mget_removeFromChannel_ne (cid : String) (channels : List (String × Channel))
    (t₀ t : String) (ht : t ≠ t₀) :
    mget t (removeFromChannel cid channels t₀) = mget t channels := by
  cases hch : mget t₀ channels with
  | none => rw [removeFromChannel_none cid channels t₀ hch]
  | some ch =>
    by_cases hlen : (sdel cid ch.subscribers).length = 0
    · rw [removeFromChannel_some_del cid channels t₀ ch hch hlen]
      exact mget_mdel_ne ht channels
    · rw [removeFromChannel_some_keep cid channels t₀ ch hch hlen, mget_mset, if_neg ht]

/-- Evaluating `removeFromChannel` preserves key uniqueness. -/
theorem nodup_keys_removeFromChannel (cid : String) (channels : List (String × Channel))
    (t₀ : String) (h : (channels.map Prod.fst).Nodup) :
    ((removeFromChannel cid channels t₀).map Prod.fst).Nodup := by
  cases hch : mget t₀ channels with
  | none => rw [removeFromChannel_none cid channels t₀ hch]; exact h
  | some ch =>
    by_cases hlen : (sdel cid ch.subscribers).length = 0
    · rw [removeFromChannel_some_del cid channels t₀ ch hch hlen]
      exact nodup_keys_mdel t₀ channels h
    · rw [removeFromChannel_some_keep cid channels t₀ ch hch hlen]
      exact nodup_keys_mset t₀ _ channels h

/-- The disconnect cleanup fold preserves key uniqueness. -/
theorem nodup_keys_foldl_remove (cid : String) (topics : List String) :
    ∀ (channels : List (String × Channel)), (channels.map Prod.fst).Nodup →
      ((topics.foldl (removeFromChannel cid) channels).map Prod.fst).Nodup := by
  induction topics with
  | nil => intro channels h; exact h
  | cons t₀ rest ih =>
    intro channels h
    exact ih (removeFromChannel cid channels t₀)
      (nodup_keys_removeFromChannel cid channels t₀ h)

/-- Characterisation of the disconnect cleanup fold: a topic in the list
loses subscriber `cid` (and its entry, if that empties it); every other
topic is untouched. -/
theorem mget_foldl_remove (cid : String) (topics : List String) (hnd : topics.Nodup) :
    ∀ (channels : List (String × Channel)), (channels.map Prod.fst).Nodup →
    ∀ t, mget t (topics.foldl (removeFromChannel cid) channels)
      = if t ∈ topics then
          (match mget t channels with
           | none => none
           | some ch =>
             if (sdel cid ch.subscribers).length = 0 then none
             else some ⟨ch.name, sdel cid ch.subscribers, ch.createdAt, ch.messageCount⟩)
        else mget t channels := by
  induction topics with
  | nil => intro channels hk t; simp
  | cons t₀ rest ih =>
    intro channels hk t
    obtain ⟨h₀, hrest⟩ := List.nodup_cons.mp hnd
    have hk₁ : ((removeFromChannel cid channels t₀).map Prod.fst).Nodup :=
      nodup_keys_removeFromChannel cid channels t₀ hk
    have IH := ih hrest (removeFromChannel cid channels t₀) hk₁ t
    show mget t (rest.foldl (removeFromChannel cid) (removeFromChannel cid channels t₀)) = _
    by_cases htr : t ∈ rest
    · have hne : t ≠ t₀ := fun hh => h₀ (hh ▸ htr)
      rw [IH, if_pos htr, mget_removeFromChannel_ne cid channels t₀ t hne,
        if_pos (List.mem_cons.mpr (Or.inr htr))]
    · by_cases ht0 : t = t₀
      · rw [IH, if_neg htr, if_pos (List.mem_cons.mpr (Or.inl ht0)), ht0]
        cases hch : mget t₀ channels with
        | none => rw [removeFromChannel_none cid channels t₀ hch, hch]
        | some ch =>
          by_cases hlen : (sdel cid ch.subscribers).length = 0
          · rw [removeFromChannel_some_del cid channels t₀ ch hch hlen]
            simp only []
            rw [if_pos hlen]
            exact mget_mdel_self t₀ channels hk
          · rw [removeFromChannel_some_keep cid channels t₀ ch hch hlen]
            simp only []
            rw [if_neg hlen, mget_mset, if_pos rfl]
      · rw [IH, if_neg htr, if_neg (by simp [ht0, htr]),
          mget_removeFromChannel_ne cid channels t₀ t ht0]

/-- Disconnecting preserves the invariant: the connection record is
dropped and, via the cleanup fold, so is its membership on every channel
(and every emptied channel entry). -/
theorem stateInv_disconnect (s : RState) (cid : String) (h : StateInv s) :
    StateInv (handleDisconnect s cid) := by
  unfold handleDisconnect
  cases hval : mget cid s.connections with
  | none => exact h
  | some conn =>
    have hnd : conn.subscribedChannels.Nodup := h.memNodup cid conn hval
    have hfold := mget_foldl_remove cid conn.subscribedChannels hnd s.channels h.chanKeys
    refine ⟨?_, ?_, ?_, ?_, ?_, ?_, ?_⟩
    · exact nodup_keys_mdel cid s.connections h.connKeys
    · exact nodup_keys_foldl_remove cid conn.subscribedChannels s.channels h.chanKeys
    · intro t₁ ch₁ hc
      rw [hfold t₁] at hc
      by_cases hm : t₁ ∈ conn.subscribedChannels
      · rw [if_pos hm] at hc
        cases hch : mget t₁ s.channels with
        | none => rw [hch] at hc; simp at hc
        | some ch =>
          rw [hch] at hc
          simp only [] at hc
          by_cases hlen : (sdel cid ch.subscribers).length = 0
          · rw [if_pos hlen] at hc; simp at hc
          · rw [if_neg hlen] at hc
            obtain rfl : ((⟨ch.name, sdel cid ch.subscribers, ch.createdAt, ch.messageCount⟩ : Channel)) = ch₁ := by injection hc
            exact nodup_sdel cid ch.subscribers (h.subsNodup t₁ ch hch)
      · rw [if_neg hm] at hc
        exact h.subsNodup t₁ ch₁ hc
    · intro c₁ conn₁ hc
      rw [mget_mdel c₁ cid s.connections h.connKeys] at hc
      by_cases hcc : c₁ = cid
      · rw [if_pos hcc] at hc; simp at hc
      · rw [if_neg hcc] at hc
        exact h.memNodup c₁ conn₁ hc
    · intro t₁ ch₁ hc
      rw [hfold t₁] at hc
      by_cases hm : t₁ ∈ conn.subscribedChannels
      · rw [if_pos hm] at hc
        cases hch : mget t₁ s.channels with
        | none => rw [hch] at hc; simp at hc
        | some ch =>
          rw [hch] at hc
          simp only [] at hc
          by_cases hlen : (sdel cid ch.subscribers).length = 0
          · rw [if_pos hlen] at hc; simp at hc
          · rw [if_neg hlen] at hc
            obtain rfl : ((⟨ch.name, sdel cid ch.subscribers, ch.createdAt, ch.messageCount⟩ : Channel)) = ch₁ := by injection hc
            intro hnil
            exact hlen (by rw [List.length_eq_zero]; exact hnil)
      · rw [if_neg hm] at hc
        exact h.chanNonempty t₁ ch₁ hc
    · intro c₁ conn₁ t₁ hc hmt
      rw [mget_mdel c₁ cid s.connections h.connKeys] at hc
      by_cases hcc : c₁ = cid
      · rw [if_pos hcc] at hc; simp at hc
      · rw [if_neg hcc] at hc
        obtain ⟨ch₁, hch₁, hmem⟩ := h.connToChan c₁ conn₁ t₁ hc hmt
        rw [hfold t₁]
        by_cases hm : t₁ ∈ conn.subscribedChannels
        · rw [if_pos hm, hch₁]
          simp only []
          have hmem' : c₁ ∈ sdel cid ch₁.subscribers :=
            (mem_sdel c₁ cid ch₁.subscribers (h.subsNodup t₁ ch₁ hch₁)).mpr ⟨hmem, hcc⟩
          have hlen : ¬ (sdel cid ch₁.subscribers).length = 0 := by
            intro h0
            rw [List.length_eq_zero.mp h0] at hmem'
            exact absurd hmem' (List.not_mem_nil c₁)
          rw [if_neg hlen]
          exact ⟨_, rfl, hmem'⟩
        · rw [if_neg hm]
          exact ⟨ch₁, hch₁, hmem⟩
    · intro t₁ ch₁ c₁ hc hmc
      rw [hfold t₁] at hc
      by_cases hm : t₁ ∈ conn.subscribedChannels
      · rw [if_pos hm] at hc
        cases hch : mget t₁ s.channels with
        | none => rw [hch] at hc; simp at hc
        | some ch =>
          rw [hch] at hc
          simp only [] at hc
          by_cases hlen : (sdel cid ch.subscribers).length = 0
          · rw [if_pos hlen] at hc; simp at hc
          · rw [if_neg hlen] at hc
            obtain rfl : ((⟨ch.name, sdel cid ch.subscribers, ch.createdAt, ch.messageCount⟩ : Channel)) = ch₁ := by injection hc
            obtain ⟨hmc', hcc⟩ :=
              (mem_sdel c₁ cid ch.subscribers (h.subsNodup t₁ ch hch)).mp hmc
            obtain ⟨conn₁, hconn₁, hmem₁⟩ := h.chanToConn t₁ ch c₁ hch hmc'
            refine ⟨conn₁, ?_, hmem₁⟩
            rw [mget_mdel_ne hcc s.connections]
            exact hconn₁
      · rw [if_neg hm] at hc
        obtain ⟨conn₁, hconn₁, hmem₁⟩ := h.chanToConn t₁ ch₁ c₁ hc hmc
        have hcc : c₁ ≠ cid := by
          intro hh
          rw [hh, hval] at hconn₁
          obtain rfl : conn = conn₁ := by injection hconn₁
          exact hm hmem₁
        refine ⟨conn₁, ?_, hmem₁⟩
        rw [mget_mdel_ne hcc s.connections]
        exact hconn₁

/-- Every transport-admissible event preserves the invariant. -/
theorem stateInv_step (s : RState) (e : Event) (h : StateInv s) (hv : ValidEvent s e) :
    StateInv (step s e) := by
  cases e with
  | connect cid u now => exact stateInv_connect s cid u now h hv
  | subscribe cid t mid now => exact stateInv_subscribe s cid t mid now h
  | unsubscribe cid t mid => exact stateInv_unsubscribe s cid t mid h
  | publish cid t p mid ack uuid now sendOk =>
    exact stateInv_publish s cid t p mid uuid ack now sendOk h
  | heartbeat cid now => exact stateInv_heartbeat s cid now h
  | disconnect cid reason => exact stateInv_disconnect s cid h

/-- Every reachable state satisfies the invariant. -/
theorem stateInv_reachable {s : RState} (h : Reachable s) : StateInv s := by
  induction h with
  | init => exact stateInv_init
  | step hr hv ih => exact stateInv_step _ _ ih hv

/-- C6: in every reachable state a topic name has a directory entry iff
its subscriber set is non-empty — so the unsubscribe or disconnect that
removes the last subscriber also removes the topic entry within the same
operation, and no topic with zero subscribers persists. -/
theorem topic_entry_iff_subscribers (s : RState) (h : Reachable s) (t : String) :
    (mget t s.channels).isSome = true ↔ subscribersOf s t ≠ [] := by
  have hi := stateInv_reachable h
  constructor
  · intro hsome
    cases hch : mget t s.channels with
    | none => rw [hch] at hsome; simp at hsome
    | some ch =>
      have he : subscribersOf s t = ch.subscribers := by
        unfold subscribersOf; rw [hch]; rfl
      rw [he]
      exact hi.chanNonempty t ch hch
  · intro hne
    cases hch : mget t s.channels with
    | none =>
      have he : subscribersOf s t = [] := by unfold subscribersOf; rw [hch]; rfl
      exact absurd he hne
    | some ch => rfl

/-- C6 (witness): after `c1` connects and subscribes to `public:a`, that
topic's entry exists iff its subscriber set is non-empty. -/
theorem topic_entry_iff_subscribers_witness :
    (mget "public:a" (step (step initState (.connect "c1" ⟨"u1", "user", []⟩ 0))
        (.subscribe "c1" "public:a" "m1" 1)).channels).isSome = true
      ↔ subscribersOf (step (step initState (.connect "c1" ⟨"u1", "user", []⟩ 0))
        (.subscribe "c1" "public:a" "m1" 1)) "public:a" ≠ [] :=
  topic_entry_iff_subscribers
    (step (step initState (.connect "c1" ⟨"u1", "user", []⟩ 0))
      (.subscribe "c1" "public:a" "m1" 1))
    (Reachable.step (Reachable.step Reachable.init rfl) True.intro) "public:a"

/-- C7: in every reachable state the two sides of the subscription
relation agree: for every live connection and every topic in the
directory, the topic is in the connection's subscribed-channel set iff the
connection's id is in the topic's subscriber set. -/
theorem subscription_relation_consistent (s : RState) (h : Reachable s) (cid t : String)
    (conn : Conn) (ch : Channel) (hc : mget cid s.connections = some conn)
    (hch : mget t s.channels = some ch) :
    t ∈ conn.subscribedChannels ↔ cid ∈ ch.subscribers := by
  have hi := stateInv_reachable h
  constructor
  · intro hm
    obtain ⟨ch₁, hch₁, hmem⟩ := hi.connToChan cid conn t hc hm
    obtain rfl : ch = ch₁ := mget_some_inj hch hch₁
    exact hmem
  · intro hm
    obtain ⟨conn₁, hconn₁, hmem⟩ := hi.chanToConn t ch cid hch hm
    obtain rfl : conn = conn₁ := mget_some_inj hc hconn₁
    exact hmem

/-- C7 (witness): the two sides of the relation agree for `c1` and
`public:a` in the reachable state where `c1` subscribed to `public:a`. -/
theorem subscription_relation_consistent_witness :
    (mget "c1" (step (step initState (.connect "c1" ⟨"u1", "user", []⟩ 0))
        (.subscribe "c1" "public:a" "m1" 1)).connections
      = some ⟨⟨"u1", "user", []⟩, 0, 0, ["public:a"]⟩ ∧
     mget "public:a" (step (step initState (.connect "c1" ⟨"u1", "user", []⟩ 0))
        (.subscribe "c1" "public:a" "m1" 1)).channels
      = some ⟨"public:a", ["c1"], 1, 0⟩) ∧
    ("public:a" ∈ (⟨⟨"u1", "user", []⟩, 0, 0, ["public:a"]⟩ : Conn).subscribedChannels
      ↔ "c1" ∈ (⟨"public:a", ["c1"], 1, 0⟩ : Channel).subscribers) :=
  ⟨⟨by decide, by decide⟩,
    subscription_relation_consistent
      (step (step initState (.connect "c1" ⟨"u1", "user", []⟩ 0))
        (.subscribe "c1" "public:a" "m1" 1))
      (Reachable.step (Reachable.step Reachable.init rfl) True.intro)
      "c1" "public:a" ⟨⟨"u1", "user", []⟩, 0, 0, ["public:a"]⟩
      ⟨"public:a", ["c1"], 1, 0⟩ (by decide) (by decide)⟩

/-- Evaluating `handleUnsubscribe` on an unknown connection: error, state unchanged. -/
theorem handleUnsubscribe_no_conn (s : RState) (cid t mid : String)
    (h : mget cid s.connections = none) :
    handleUnsubscribe s cid t mid = (s, .err "connection_not_found" "连接不存在") := by
  unfold handleUnsubscribe
  rw [h]

/-- Evaluating `handleUnsubscribe` on an absent topic: only the connection's own
membership set is touched, and the ack reports zero subscribers. -/
theorem handleUnsubscribe_no_chan (s : RState) (cid t mid : String) (conn : Conn)
    (hc : mget cid s.connections = some conn) (hch : mget t s.channels = none) :
    handleUnsubscribe s cid t mid
      = ({ s with connections := mset cid ⟨conn.user, conn.connectedAt, conn.lastActivity, sdel t conn.subscribedChannels⟩ s.connections },
         .unsubAck mid t 0) := by
  unfold handleUnsubscribe
  rw [hc, hch]

/-- Evaluating `handleUnsubscribe` removing the last subscriber: the channel entry is
deleted. -/
theorem handleUnsubscribe_last (s : RState) (cid t mid : String) (conn : Conn)
    (ch : Channel) (hc : mget cid s.connections = some conn)
    (hch : mget t s.channels = some ch)
    (hlen : (sdel cid ch.subscribers).length = 0) :
    handleUnsubscribe s cid t mid
      = ({ s with
            connections := mset cid ⟨conn.user, conn.connectedAt, conn.lastActivity, sdel t conn.subscribedChannels⟩ s.connections,
            channels := mdel t s.channels },
         .unsubAck mid t (sdel cid ch.subscribers).length) := by
  unfold handleUnsubscribe
  rw [hc, hch]
  simp only []
  rw [if_pos hlen]

/-- Evaluating `handleUnsubscribe` with other subscribers remaining: the channel
entry is kept with the shrunken subscriber set. -/
theorem handleUnsubscribe_keep (s : RState) (cid t mid : String) (conn : Conn)
    (ch : Channel) (hc : mget cid s.connections = some conn)
    (hch : mget t s.channels = some ch)
    (hlen : ¬ (sdel cid ch.subscribers).length = 0) :
    handleUnsubscribe s cid t mid
      = ({ s with
            connections := mset cid ⟨conn.user, conn.connectedAt, conn.lastActivity, sdel t conn.subscribedChannels⟩ s.connections,
            channels := mset t ⟨ch.name, sdel cid ch.subscribers, ch.createdAt, ch.messageCount⟩ s.channels },
         .unsubAck mid t (sdel cid ch.subscribers).length) := by
  unfold handleUnsubscribe
  rw [hc, hch]
  simp only []
  rw [if_neg hlen]

/-- Evaluating `handleDisconnect` on an unknown id is a no-op. -/
theorem handleDisconnect_no_conn (s : RState) (cid : String)
    (h : mget cid s.connections = none) : handleDisconnect s cid = s := by
  unfold handleDisconnect
  rw [h]

/-- Evaluating `handleDisconnect` on a live id: cleanup fold plus record removal. -/
theorem handleDisconnect_some (s : RState) (cid : String) (conn : Conn)
    (hc : mget cid s.connections = some conn) :
    handleDisconnect s cid
      = { s with
            channels := conn.subscribedChannels.foldl (removeFromChannel cid) s.channels,
            connections := mdel cid s.connections } := by
  unfold handleDisconnect
  rw [hc]

/-- C8: against any reachable state, for a live connection, a second
identical `unsubscribe` leaves the state exactly as after the first and
is still acknowledged with success (never an error); a second
`disconnect` is a no-op; and unsubscribing from a nonexistent topic, or
from a topic the connection is not a member of, is acknowledged with
success rather than an error. -/
theorem unsubscribe_disconnect_idempotent (s : RState) (h : Reachable s)
    (cid t mid mid2 : String) (conn : Conn)
    (hc : mget cid s.connections = some conn) :
    (handleUnsubscribe (handleUnsubscribe s cid t mid).1 cid t mid2).1
        = (handleUnsubscribe s cid t mid).1 ∧
    (∃ k, (handleUnsubscribe (handleUnsubscribe s cid t mid).1 cid t mid2).2
        = Reply.unsubAck mid2 t k) ∧
    handleDisconnect (handleDisconnect s cid) cid = handleDisconnect s cid ∧
    (mget t s.channels = none →
      (handleUnsubscribe s cid t mid).2 = Reply.unsubAck mid t 0) ∧
    (∀ ch, mget t s.channels = some ch → cid ∉ ch.subscribers →
      (handleUnsubscribe s cid t mid).2 = Reply.unsubAck mid t ch.subscribers.length) := by
  have hi := stateInv_reachable h
  have hnd : conn.subscribedChannels.Nodup := hi.memNodup cid conn hc
  have hnotmem : t ∉ sdel t conn.subscribedChannels := not_mem_sdel_self t _ hnd
  have hconn2 : sdel t (sdel t conn.subscribedChannels) = sdel t conn.subscribedChannels :=
    sdel_of_not_mem hnotmem
  have hdisc : handleDisconnect (handleDisconnect s cid) cid = handleDisconnect s cid := by
    have h2 : mget cid (handleDisconnect s cid).connections = none := by
      rw [handleDisconnect_some s cid conn hc]
      exact mget_mdel_self cid s.connections hi.connKeys
    exact handleDisconnect_no_conn _ cid h2
  cases hch : mget t s.channels with
  | none =>
    have e1 := handleUnsubscribe_no_chan s cid t mid conn hc hch
    have hc1 : mget cid (handleUnsubscribe s cid t mid).1.connections
        = some ⟨conn.user, conn.connectedAt, conn.lastActivity, sdel t conn.subscribedChannels⟩ := by
      rw [e1]
      show mget cid (mset cid _ s.connections) = _
      rw [mget_mset, if_pos rfl]
    have hch1 : mget t (handleUnsubscribe s cid t mid).1.channels = none := by
      rw [e1]
      exact hch
    have e2 := handleUnsubscribe_no_chan (handleUnsubscribe s cid t mid).1 cid t mid2 _ hc1 hch1
    refine ⟨?_, ⟨0, by rw [e2]⟩, hdisc, fun _ => by rw [e1], ?_⟩
    · rw [e2, e1]
      simp only []
      rw [hconn2, mset_mset_self]
    · intro ch₀ hch₀ hmem₀
      exact absurd hch₀ (by simp)
  | some ch =>
    have hchnd : ch.subscribers.Nodup := hi.subsNodup t ch hch
    by_cases hlen : (sdel cid ch.subscribers).length = 0
    · have e1 := handleUnsubscribe_last s cid t mid conn ch hc hch hlen
      have hc1 : mget cid (handleUnsubscribe s cid t mid).1.connections
          = some ⟨conn.user, conn.connectedAt, conn.lastActivity, sdel t conn.subscribedChannels⟩ := by
        rw [e1]
        show mget cid (mset cid _ s.connections) = _
        rw [mget_mset, if_pos rfl]
      have hch1 : mget t (handleUnsubscribe s cid t mid).1.channels = none := by
        rw [e1]
        show mget t (mdel t s.channels) = none
        exact mget_mdel_self t s.channels hi.chanKeys
      have e2 := handleUnsubscribe_no_chan (handleUnsubscribe s cid t mid).1 cid t mid2 _ hc1 hch1
      refine ⟨?_, ⟨0, by rw [e2]⟩, hdisc, ?_, ?_⟩
      · rw [e2, e1]
        simp only []
        rw [hconn2, mset_mset_self]
      · intro h0
        exact absurd h0 (by simp)
      · intro ch₀ hch₀ hmem₀
        obtain rfl : ch = ch₀ := by injection hch₀
        rw [e1, sdel_of_not_mem hmem₀]
    · have e1 := handleUnsubscribe_keep s cid t mid conn ch hc hch hlen
      have hscid : cid ∉ sdel cid ch.subscribers := not_mem_sdel_self cid _ hchnd
      have hsdel2 : sdel cid (sdel cid ch.subscribers) = sdel cid ch.subscribers :=
        sdel_of_not_mem hscid
      have hc1 : mget cid (handleUnsubscribe s cid t mid).1.connections
          = some ⟨conn.user, conn.connectedAt, conn.lastActivity, sdel t conn.subscribedChannels⟩ := by
        rw [e1]
        show mget cid (mset cid _ s.connections) = _
        rw [mget_mset, if_pos rfl]
      have hch1 : mget t (handleUnsubscribe s cid t mid).1.channels
          = some ⟨ch.name, sdel cid ch.subscribers, ch.createdAt, ch.messageCount⟩ := by
        rw [e1]
        show mget t (mset t _ s.channels) = _
        rw [mget_mset, if_pos rfl]
      have hlen1 : ¬ (sdel cid (⟨ch.name, sdel cid ch.subscribers, ch.createdAt, ch.messageCount⟩ : Channel).subscribers).length = 0 := by
        show ¬ (sdel cid (sdel cid ch.subscribers)).length = 0
        rw [hsdel2]
        exact hlen
      have e2 := handleUnsubscribe_keep (handleUnsubscribe s cid t mid).1 cid t mid2 _ _ hc1 hch1 hlen1
      refine ⟨?_, ⟨_, by rw [e2]⟩, hdisc, ?_, ?_⟩
      · rw [e2, e1]
        simp only []
        rw [hconn2, hsdel2, mset_mset_self, mset_mset_self]
      · intro h0
        exact absurd h0 (by simp)
      · intro ch₀ hch₀ hmem₀
        obtain rfl : ch = ch₀ := by injection hch₀
        rw [e1, sdel_of_not_mem hmem₀]

/-- C8 (witness): the idempotence statement instantiated at the reachable
state where `c1` subscribed to `public:a`. -/
theorem unsubscribe_disconnect_idempotent_witness :
    let s := step (step initState (.connect "c1" ⟨"u1", "user", []⟩ 0))
      (.subscribe "c1" "public:a" "m1" 1)
    mget "c1" s.connections = some ⟨⟨"u1", "user", []⟩, 0, 0, ["public:a"]⟩ ∧
    ((handleUnsubscribe (handleUnsubscribe s "c1" "public:a" "m2").1 "c1" "public:a" "m3").1
        = (handleUnsubscribe s "c1" "public:a" "m2").1 ∧
      (∃ k, (handleUnsubscribe (handleUnsubscribe s "c1" "public:a" "m2").1
          "c1" "public:a" "m3").2 = Reply.unsubAck "m3" "public:a" k) ∧
      handleDisconnect (handleDisconnect s "c1") "c1" = handleDisconnect s "c1" ∧
      (mget "public:a" s.channels = none →
        (handleUnsubscribe s "c1" "public:a" "m2").2 = Reply.unsubAck "m2" "public:a" 0) ∧
      (∀ ch, mget "public:a" s.channels = some ch → "c1" ∉ ch.subscribers →
        (handleUnsubscribe s "c1" "public:a" "m2").2
          = Reply.unsubAck "m2" "public:a" ch.subscribers.length)) := by
  intro s
  exact ⟨by decide,
    unsubscribe_disconnect_idempotent s
      (Reachable.step (Reachable.step Reachable.init rfl) True.intro)
      "c1" "public:a" "m2" "m3" ⟨⟨"u1", "user", []⟩, 0, 0, ["public:a"]⟩ (by decide)⟩
